import Mathlib

/-!
Verification of the t9s terminal dashboard core against its specification.

The development shallowly embeds the pure core of the program:
the deep-link Location/URI codec (src/nav/uri.rs, src/nav/location.rs),
the kind registry (src/kinds/mod.rs) and the reducer (src/app.rs).

Modelling conventions:
- Rust String is modelled as a list of chars (`Str`); the byte-level
  percent codec works on the UTF-8 bytes of those chars, computed
  explicitly, since the Rust code iterates over bytes.
- Machine integers are modelled as `Nat` with an explicit `% 2 ^ w`
  where the Rust arithmetic can wrap (u32 error counter, u64 seconds).
- `Instant` is modelled as an abstract `Nat` timestamp threaded into the
  reducer as an explicit `now` argument; `Duration` values are whole
  seconds (the program only ever builds them with `from_secs`).
- `std::collections::HashMap<String, String>` for URI query parameters is
  modelled as a lookup function `Str → Option Str`; inserting overwrites.
-/

namespace T9s

/-- Rust strings, as lists of Unicode scalar values. -/
abbrev Str := List Char

/-- Boolean test that the first list is a leading part of the second. -/
def leadsWith : Str → Str → Bool
  | [], _ => true
  | _ :: _, [] => false
  | a :: p, b :: q => a = b && leadsWith p q

/-- Rust `str::split(char)`: pieces between occurrences of the separator,
empty pieces kept, at least one piece. -/
def rustSplit (sep : Char) : Str → List Str
  | [] => [[]]
  | c :: rest =>
    if c = sep then [] :: rustSplit sep rest
    else
      match rustSplit sep rest with
      | [] => [[c]]
      | p :: ps => (c :: p) :: ps

/-- Rust `str::split_once(char)`: parts before and after the first
occurrence of the separator, or `none` when it never occurs. -/
def splitOnceChar (sep : Char) : Str → Option (Str × Str)
  | [] => none
  | c :: rest =>
    if c = sep then some ([], rest)
    else (splitOnceChar sep rest).map (fun p => (c :: p.1, p.2))

/-- Rust `str::split_once(&str)`: parts around the first occurrence of a
string pattern. -/
def splitOnceStr (sep : Str) : Str → Option (Str × Str)
  | [] => if sep = [] then some ([], []) else none
  | c :: rest =>
    if leadsWith sep (c :: rest) then some ([], (c :: rest).drop sep.length)
    else (splitOnceStr sep rest).map (fun p => (c :: p.1, p.2))

/-! ### Location (src/nav/location.rs) -/

inductive WorkflowsRoute where
  | Collection (query : Option Str)
  | Detail (workflow_id : Str) (run_id : Option Str) (tab : Option Str)
  | Activities (workflow_id : Str) (activity_id : Option Str)
deriving DecidableEq

inductive SchedulesRoute where
  | Collection (query : Option Str)
  | Detail (schedule_id : Str)
  | Workflows (schedule_id : Str) (query : Option Str)
deriving DecidableEq

inductive RouteSegment where
  | Workflows (route : WorkflowsRoute)
  | Schedules (route : SchedulesRoute)
deriving DecidableEq

/-- The navigable address; `nspace` models the Rust field whose name is a
Lean keyword. -/
structure Location where
  nspace : Str
  segments : List RouteSegment
deriving DecidableEq

/-- `Location::leaf`: the last route segment. -/
def Location.leaf (l : Location) : Option RouteSegment :=
  l.segments.getLast?

inductive UriError where
  | InvalidScheme
  | InvalidAuthority
  | MissingNamespace
  | InvalidPath
  | UnsupportedRoute
deriving DecidableEq

instance {ε α : Type} [DecidableEq ε] [DecidableEq α] : DecidableEq (Except ε α) :=
  fun x y =>
    match x, y with
    | .error a, .error b =>
      if h : a = b then .isTrue (h ▸ rfl)
      else .isFalse (fun hc => h (Except.error.inj hc))
    | .ok a, .ok b =>
      if h : a = b then .isTrue (h ▸ rfl)
      else .isFalse (fun hc => h (Except.ok.inj hc))
    | .error _, .ok _ => .isFalse Except.noConfusion
    | .ok _, .error _ => .isFalse Except.noConfusion

/-! ### Percent codec (src/nav/uri.rs lines 243-292) -/

/-- UTF-8 bytes of one scalar value, as the Rust byte iterator yields them. -/
def utf8Bytes (c : Char) : List Nat :=
  let n := c.toNat
  if n < 0x80 then [n]
  else if n < 0x800 then [0xC0 + n / 64, 0x80 + n % 64]
  else if n < 0x10000 then [0xE0 + n / 4096, 0x80 + n / 64 % 64, 0x80 + n % 64]
  else [0xF0 + n / 262144, 0x80 + n / 4096 % 64, 0x80 + n / 64 % 64, 0x80 + n % 64]

/-- All UTF-8 bytes of a string. -/
def strBytes (s : Str) : List Nat :=
  (s.map utf8Bytes).flatten

/-- Bytes kept verbatim by `percent_encode`: letters, digits, `-._~`. -/
def allowedByte (b : Nat) : Bool :=
  (65 ≤ b && b ≤ 90) || (97 ≤ b && b ≤ 122) || (48 ≤ b && b ≤ 57)
    || b = 45 || b = 46 || b = 95 || b = 126

/-- Upper-case hex digit, as produced by the Rust `{:02X}` format. -/
def hexDigitU (n : Nat) : Char :=
  if n < 10 then Char.ofNat (48 + n) else Char.ofNat (55 + n)

/-- Encoding of a single byte: kept verbatim or `%XX`. -/
def encodeByte (b : Nat) : Str :=
  if allowedByte b then [Char.ofNat b] else ['%', hexDigitU (b / 16), hexDigitU (b % 16)]

/-- `percent_encode`: encode every UTF-8 byte of the input. -/
def percentEncode (s : Str) : Str :=
  ((strBytes s).map encodeByte).flatten

/-- Rust `char::to_digit(16)`. -/
def toDigit16 (c : Char) : Option Nat :=
  if '0' ≤ c ∧ c ≤ '9' then some (c.toNat - 48)
  else if 'a' ≤ c ∧ c ≤ 'f' then some (c.toNat - 87)
  else if 'A' ≤ c ∧ c ≤ 'F' then some (c.toNat - 55)
  else none

/-- `percent_decode_inner`: each valid `%XX` becomes the scalar value `XX`
(one char per byte, no UTF-8 reassembly); a malformed escape is kept
verbatim with its two consumed chars; `+` becomes a space in query mode. -/
def percentDecodeInner (plusAsSpace : Bool) : Str → Str
  | [] => []
  | '%' :: hi :: lo :: rest =>
    match toDigit16 hi, toDigit16 lo with
    | some h, some l => Char.ofNat (16 * h + l) :: percentDecodeInner plusAsSpace rest
    | some _, none => '%' :: hi :: lo :: percentDecodeInner plusAsSpace rest
    | none, _ => '%' :: hi :: lo :: percentDecodeInner plusAsSpace rest
  | ['%', hi] => ['%', hi]
  | ['%'] => ['%']
  | c :: rest =>
    if plusAsSpace ∧ c = '+' then ' ' :: percentDecodeInner plusAsSpace rest
    else c :: percentDecodeInner plusAsSpace rest

def percentDecodePath (s : Str) : Str := percentDecodeInner false s

def percentDecodeQuery (s : Str) : Str := percentDecodeInner true s

/-! ### Query parameter map and parsing (src/nav/uri.rs lines 223-241) -/

/-- Query parameter map: lookup by key. -/
def PMap := Str → Option Str

def PMap.empty : PMap := fun _ => none

/-- HashMap insert: later inserts overwrite earlier ones. -/
def PMap.insert (m : PMap) (k v : Str) : PMap :=
  fun q => if q = k then some v else m q

/-- `parse_query`: split on `&`, skip empty pairs, split each pair at the
first `=` (missing value is empty), percent-decode keys and values. -/
def parseQuery : Option Str → PMap
  | none => PMap.empty
  | some q =>
    (rustSplit '&' q).foldl
      (fun m pair =>
        if pair.isEmpty then m
        else
          let kv : Str × Str :=
            match splitOnceChar '=' pair with
            | some p => p
            | none => (pair, [])
          m.insert (percentDecodeQuery kv.1) (percentDecodeQuery kv.2))
      PMap.empty

/-! ### Route parsing (src/nav/uri.rs lines 71-141) -/

def parseWorkflowsRoute (segs : List Str) (params : PMap) :
    Except UriError (List RouteSegment) :=
  match segs with
  | [] => .ok [.Workflows (.Collection (params ['q']))]
  | [wfid] => .ok [.Workflows (.Detail wfid (params "run_id".data) (params "tab".data))]
  | wfid :: s1 :: rest =>
    if s1 = "activities".data then .ok [.Workflows (.Activities wfid rest.head?)]
    else .error .UnsupportedRoute

def parseSchedulesRoute (segs : List Str) (params : PMap) :
    Except UriError (List RouteSegment) :=
  match segs with
  | [] => .ok [.Schedules (.Collection (params ['q']))]
  | [sid] => .ok [.Schedules (.Detail sid)]
  | [sid, s1] =>
    if s1 = "workflows".data then .ok [.Schedules (.Workflows sid (params ['q']))]
    else .error .UnsupportedRoute
  | _ => .error .UnsupportedRoute

def parseRoute (segs : List Str) (params : PMap) :
    Except UriError (List RouteSegment) :=
  match segs with
  | [] => .error .InvalidPath
  | s0 :: rest =>
    if s0 = "workflows".data then parseWorkflowsRoute rest params
    else if s0 = "schedules".data then parseSchedulesRoute rest params
    else .error .UnsupportedRoute

/-- `parse_deep_link` (src/nav/uri.rs lines 14-50). -/
def parseDeepLink (input : Str) : Except UriError Location :=
  match splitOnceStr "://".data input with
  | none => .error .InvalidScheme
  | some (scheme, rest) =>
    if scheme ≠ "temporal".data then .error .InvalidScheme else
    let authPQ : Str × Str :=
      match splitOnceChar '/' rest with
      | some p => (p.1, '/' :: p.2)
      | none => (rest, ['/'])
    if authPQ.1 ≠ "tui".data then .error .InvalidAuthority else
    let pathQ : Str × Option Str :=
      match splitOnceChar '?' authPQ.2 with
      | some p => (p.1, some p.2)
      | none => (authPQ.2, none)
    let segs : List Str :=
      ((rustSplit '/' pathQ.1).filter (fun s => !s.isEmpty)).map percentDecodePath
    if segs.length < 2 ∨ segs.head? ≠ some ("namespaces".data) then .error .MissingNamespace else
    let params := parseQuery pathQ.2
    match parseRoute (segs.drop 2) params with
    | .error e => .error e
    | .ok routeSegs => .ok ⟨(segs.get? 1).getD [], routeSegs⟩

/-! ### Formatting (src/nav/uri.rs lines 52-69 and 143-221) -/

def formatWorkflowsRoute : WorkflowsRoute → Str
  | .Collection _ => "/workflows".data
  | .Detail wfid _ _ => "/workflows/".data ++ percentEncode wfid
  | .Activities wfid aid =>
    "/workflows/".data ++ percentEncode wfid ++ "/activities".data ++
      (match aid with
       | some i => '/' :: percentEncode i
       | none => [])

def formatSchedulesRoute : SchedulesRoute → Str
  | .Collection _ => "/schedules".data
  | .Detail sid => "/schedules/".data ++ percentEncode sid
  | .Workflows sid _ => "/schedules/".data ++ percentEncode sid ++ "/workflows".data

/-- Query parameters contributed by the leaf segment, in emission order. -/
def leafParams : Option RouteSegment → List (Str × Str)
  | some (.Workflows (.Collection (some q))) => [(['q'], q)]
  | some (.Workflows (.Detail _ run tab)) =>
    (match run with | some r => [("run_id".data, r)] | none => []) ++
      (match tab with | some t => [("tab".data, t)] | none => [])
  | some (.Schedules (.Collection (some q))) => [(['q'], q)]
  | some (.Schedules (.Workflows _ (some q))) => [(['q'], q)]
  | _ => []

/-- `build_query`: `k=v` pairs, percent-encoded, joined with `&`. -/
def buildQuery (loc : Location) : Str :=
  List.intercalate ['&']
    ((leafParams loc.leaf).map (fun p => percentEncode p.1 ++ '=' :: percentEncode p.2))

/-- `format_deep_link`. -/
def formatDeepLink (loc : Location) : Str :=
  let path :=
    "/namespaces/".data ++ percentEncode loc.nspace ++
      (loc.segments.map (fun s =>
        match s with
        | .Workflows r => formatWorkflowsRoute r
        | .Schedules r => formatSchedulesRoute r)).flatten
  let query := buildQuery loc
  if query.isEmpty then "temporal://tui".data ++ path
  else "temporal://tui".data ++ path ++ '?' :: query

example :
    parseDeepLink (formatDeepLink ⟨"default".data,
      [.Schedules (.Workflows "nightly-reconcile".data
        (some "ExecutionStatus = 'Failed'".data))]⟩) =
    .ok ⟨"default".data,
      [.Schedules (.Workflows "nightly-reconcile".data
        (some "ExecutionStatus = 'Failed'".data))]⟩ := by
  decide

example :
    parseDeepLink (formatDeepLink ⟨"prod".data,
      [.Workflows (.Detail "order-123".data (some "run-abc".data)
        (some "history".data))]⟩) =
    .ok ⟨"prod".data,
      [.Workflows (.Detail "order-123".data (some "run-abc".data)
        (some "history".data))]⟩ := by
  decide

/-! ### Domain snapshots (src/domain)

`DateTime<Utc>`, `Instant` and `Duration` values are carried opaquely by
the reducer; they are modelled as `Nat` (an abstract tick count for the
two time types, whole seconds for durations). The `f64` poller rate,
which the reducer never reads, is omitted. -/

inductive WorkflowStatus where
  | Running | Completed | Failed | Canceled | Terminated | TimedOut | ContinuedAsNew
deriving DecidableEq

structure WorkflowSummary where
  workflow_id : Str
  run_id : Str
  workflow_type : Str
  status : WorkflowStatus
  start_time : Nat
  close_time : Option Nat
  task_queue : Str
deriving DecidableEq

/-- A `serde_json::Value` as far as the reducer inspects one: it only ever
looks up object keys and reads strings; all other shapes are carried
opaquely as `other`. -/
inductive Json where
  | str (s : Str)
  | obj (fields : List (Str × Json))
  | other

/-- `Value::get(key)` on an object; `None` on any other shape. -/
def Json.getKey : Json → Str → Option Json
  | .obj fields, k => (fields.find? (fun p => decide (p.1 = k))).map (fun p => p.2)
  | _, _ => none

/-- `Value::as_str`. -/
def Json.asStr : Json → Option Str
  | .str s => some s
  | _ => none

inductive FailureInfo where
  | mk (message : Str) (failure_type : Str) (stack_trace : Option Str)
      (cause : Option FailureInfo)

inductive PendingActivityState where
  | Scheduled | Started | CancelRequested
deriving DecidableEq

structure PendingActivity where
  activity_id : Str
  activity_type : Str
  state : PendingActivityState
  attempt : Int
  scheduled_time : Option Nat
  last_started_time : Option Nat
  last_heartbeat_time : Option Nat
  last_failure_message : Option Str
deriving DecidableEq

structure WorkflowDetail where
  summary : WorkflowSummary
  input : Option Json
  output : Option Json
  failure : Option FailureInfo
  history_length : Nat
  memo : List (Str × Json)
  search_attributes : List (Str × Json)
  pending_activities : List PendingActivity

structure HistoryEvent where
  event_id : Int
  event_type : Str
  timestamp : Nat
  details : Json

inductive ScheduleState where
  | Active | Paused
deriving DecidableEq

structure Schedule where
  schedule_id : Str
  workflow_type : Str
  state : ScheduleState
  spec_description : Str
  next_run : Option Nat
  recent_action_count : Nat
  notes : Str
deriving DecidableEq

structure NamespaceRec where
  name : Str
  state : Str
  description : Str
  owner_email : Str
  retention : Option Nat
deriving DecidableEq

structure Poller where
  identity : Str
  last_access_time : Option Nat
deriving DecidableEq

structure TaskQueueInfo where
  name : Str
  pollers : List Poller
deriving DecidableEq

/-! ### Kind and operation identities (src/kinds/mod.rs) -/

inductive KindId where
  | WorkflowExecution | Schedule
deriving DecidableEq

inductive OperationId where
  | CancelWorkflow | TerminateWorkflow | PauseSchedule | TriggerSchedule | DeleteSchedule
deriving DecidableEq

inductive ViewType where
  | Workflows | Schedules | TaskQueues
deriving DecidableEq

/-! ### Reducer state types (src/app.rs) -/

inductive View where
  | Collection (kind : KindId)
  | Detail (kind : KindId)
deriving DecidableEq

inductive InputMode where
  | Normal | Command | Search | PendingG
deriving DecidableEq

inductive OperationTarget where
  | Workflow (workflow_id : Str) (run_id : Option Str)
  | Schedule (schedule_id : Str)
deriving DecidableEq

structure OperationConfirm where
  kind : KindId
  op : OperationId
  target : OperationTarget
deriving DecidableEq

inductive ConfirmAction where
  | Operation (c : OperationConfirm)
deriving DecidableEq

inductive Overlay where
  | None | Help | NamespaceSelector
  | Confirm (c : ConfirmAction)
deriving DecidableEq

inductive LoadState (T : Type) where
  | NotLoaded | Loading
  | Loaded (data : T)
  | Error (msg : Str)
deriving DecidableEq

/-- `LoadState::data`. -/
def LoadState.dataOf {T : Type} : LoadState T → Option T
  | .Loaded d => some d
  | _ => none

inductive ConnectionStatus where
  | Disconnected | Connecting | Connected
  | Error (msg : Str)
deriving DecidableEq

inductive Effect where
  | LoadWorkflows
  | LoadWorkflowDetail (workflow_id : Str) (run_id : Option Str)
  | LoadHistory (workflow_id : Str) (run_id : Option Str)
  | LoadNamespaces
  | LoadSchedules
  | LoadScheduleDetail (schedule_id : Str)
  | LoadWorkflowCount
  | CancelWorkflow (workflow_id : Str) (run_id : Option Str)
  | TerminateWorkflow (workflow_id : Str) (run_id : Option Str)
  | PauseSchedule (schedule_id : Str) (pause : Bool)
  | TriggerSchedule (schedule_id : Str)
  | DeleteSchedule (schedule_id : Str)
  | LoadMoreWorkflows
  | LoadTaskQueueDetail (task_queue : Str)
  | SignalWorkflow (workflow_id : Str) (run_id : Option Str)
      (name : Str) (input : Option Str)
  | Quit
deriving DecidableEq

/-- The closed set of input/result events, exactly the variants the
reducer in src/app.rs matches on. -/
inductive Action where
  | NavigateUp | NavigateDown | NavigateTop | NavigateBottom
  | PageUp | PageDown
  | Select | Back
  | SwitchView (v : ViewType)
  | EnterPendingG
  | RunOperation (op : OperationId)
  | OpenCommandInput | OpenSearch | CloseOverlay
  | SubmitCommandInput (cmd : Str)
  | UpdateInputBuffer (buf : Str)
  | SubmitSearch (query : Str)
  | ToggleHelp
  | SwitchNamespace (ns : Str)
  | NextTab | PrevTab
  | OpenScheduleWorkflows | OpenWorkflowActivities
  | WorkflowsLoaded (workflows : List WorkflowSummary) (next_page_token : List Nat)
  | MoreWorkflowsLoaded (workflows : List WorkflowSummary) (next_page_token : List Nat)
  | WorkflowDetailLoaded (detail : WorkflowDetail)
  | HistoryLoaded (events : List HistoryEvent)
  | NamespacesLoaded (namespaces : List NamespaceRec)
  | SchedulesLoaded (schedules : List Schedule)
  | ScheduleDetailLoaded (schedule : Schedule)
  | WorkflowCountLoaded (count : Nat)
  | TaskQueueDetailLoaded (tq : TaskQueueInfo)
  | Refresh | Quit | Tick
  | Error (msg : Str)
  | ClearError | TogglePolling

/-! ### ratatui TableState

The cursor type from the ratatui dependency: it stores a render offset
and an optional selected index, and does not know the row count, so the
select moves saturate at 0 and at `usize::MAX` and clamping to the
collection happens only at render time. -/

def USIZE_MAX : Nat := 2 ^ 64 - 1

def U16_MAX : Nat := 2 ^ 16 - 1

structure TableState where
  offset : Nat
  selected : Option Nat
deriving DecidableEq

def TableState.default : TableState := ⟨0, none⟩

/-- `TableState::select`: sets the index, resetting the offset when the
selection is cleared. -/
def TableState.selectIdx (t : TableState) (i : Option Nat) : TableState :=
  { t with selected := i, offset := if i = none then 0 else t.offset }

def TableState.selectFirst (t : TableState) : TableState :=
  t.selectIdx (some 0)

def TableState.selectNext (t : TableState) : TableState :=
  t.selectIdx (some (match t.selected with
    | none => 0
    | some i => min (i + 1) USIZE_MAX))

def TableState.selectPrevious (t : TableState) : TableState :=
  t.selectIdx (some (match t.selected with
    | none => USIZE_MAX
    | some i => i - 1))

def TableState.selectLast (t : TableState) : TableState :=
  t.selectIdx (some USIZE_MAX)

/-! ### Per-kind search queries

`HashMap<KindId, String>` over the two-valued `KindId` is modelled as a
pair of optional entries. -/

structure KindMap where
  wf : Option Str
  sch : Option Str
deriving DecidableEq

def KindMap.empty : KindMap := ⟨none, none⟩

def KindMap.getK (m : KindMap) : KindId → Option Str
  | .WorkflowExecution => m.wf
  | .Schedule => m.sch

def KindMap.insertK (m : KindMap) (k : KindId) (v : Str) : KindMap :=
  match k with
  | .WorkflowExecution => { m with wf := some v }
  | .Schedule => { m with sch := some v }

def KindMap.removeK (m : KindMap) : KindId → KindMap
  | .WorkflowExecution => { m with wf := none }
  | .Schedule => { m with sch := none }

/-- The single mutable application state (struct `App`, src/app.rs). -/
structure App where
  view : View
  input_mode : InputMode
  overlay : Overlay
  nspace : Str
  namespaces : List NamespaceRec
  connection_status : ConnectionStatus
  workflows : LoadState (List WorkflowSummary)
  workflow_count : Option Nat
  selected_workflow : Option WorkflowDetail
  workflow_history : LoadState (List HistoryEvent)
  workflow_table_state : TableState
  workflow_detail_tab : Nat
  schedules : LoadState (List Schedule)
  selected_schedule : Option Schedule
  schedule_table_state : TableState
  task_queue_detail : LoadState TaskQueueInfo
  namespace_selector_state : TableState
  detail_scroll : Nat
  input_buffer : Str
  search_queries : KindMap
  polling_enabled : Bool
  polling_interval : Nat
  base_polling_interval : Nat
  last_refresh : Option Nat
  error_count : Nat
  loading_more : Bool
  should_quit : Bool
  last_error : Option (Str × Nat)
  active_tab : ViewType
  page_size : Int
  next_page_token : List Nat

/-- `App::new`. -/
def App.new (ns : Str) : App where
  view := .Collection .WorkflowExecution
  input_mode := .Normal
  overlay := .None
  nspace := ns
  namespaces := []
  connection_status := .Connecting
  workflows := .NotLoaded
  workflow_count := none
  selected_workflow := none
  workflow_history := .NotLoaded
  workflow_table_state := .default
  workflow_detail_tab := 0
  schedules := .NotLoaded
  selected_schedule := none
  schedule_table_state := .default
  task_queue_detail := .NotLoaded
  namespace_selector_state := .default
  detail_scroll := 0
  input_buffer := []
  search_queries := .empty
  polling_enabled := true
  polling_interval := 3
  base_polling_interval := 3
  last_refresh := none
  error_count := 0
  loading_more := false
  should_quit := false
  last_error := none
  active_tab := .Workflows
  page_size := 50
  next_page_token := []

/-! ### Kind registry (src/kinds/mod.rs)

Rendering hooks (column widths, row renderers, detail renderers) consume
ratatui types and produce no state changes; they are outside the pure
core and omitted. The registry data the reducer reads is kept:
detail tabs and the operation tables. -/

def WORKFLOW_DETAIL_TABS : List Str :=
  ["Summary".data, "Input/Output".data, "History".data,
   "Pending Activities".data, "Task Queue".data]

def detailTabsForKind : KindId → Option (List Str)
  | .WorkflowExecution => some WORKFLOW_DETAIL_TABS
  | .Schedule => none

/-- `detail_tab_count`. -/
def detailTabCount (kind : KindId) : Nat :=
  ((detailTabsForKind kind).map (fun tabs => tabs.length)).getD 0

structure OperationSpec where
  id : OperationId
  label : Str
  key : Char
  requires_confirm : Bool
deriving DecidableEq

def WORKFLOW_OPS : List OperationSpec :=
  [⟨.CancelWorkflow, "Cancel workflow".data, 'c', true⟩,
   ⟨.TerminateWorkflow, "Terminate workflow".data, 't', true⟩]

def SCHEDULE_OPS : List OperationSpec :=
  [⟨.PauseSchedule, "Pause/unpause schedule".data, 'p', false⟩,
   ⟨.TriggerSchedule, "Trigger schedule".data, 'T', true⟩,
   ⟨.DeleteSchedule, "Delete schedule".data, 'd', true⟩]

def kindOperations : KindId → List OperationSpec
  | .WorkflowExecution => WORKFLOW_OPS
  | .Schedule => SCHEDULE_OPS

/-- `operation_spec`. -/
def operationSpec (kind : KindId) (op : OperationId) : Option OperationSpec :=
  (kindOperations kind).find? (fun s => decide (s.id = op))

/-- `operation_for_key`. -/
def operationForKey (kind : KindId) (key : Char) : Option OperationId :=
  ((kindOperations kind).find? (fun s => decide (s.key = key))).map (fun s => s.id)

def workflowCancelEffects (target : OperationTarget) (_app : App) : List Effect :=
  match target with
  | .Workflow wfid run => [.CancelWorkflow wfid run]
  | _ => []

def workflowTerminateEffects (target : OperationTarget) (_app : App) : List Effect :=
  match target with
  | .Workflow wfid run => [.TerminateWorkflow wfid run]
  | _ => []

def scheduleTriggerEffects (target : OperationTarget) (_app : App) : List Effect :=
  match target with
  | .Schedule sid => [.TriggerSchedule sid]
  | _ => []

def scheduleDeleteEffects (target : OperationTarget) (_app : App) : List Effect :=
  match target with
  | .Schedule sid => [.DeleteSchedule sid]
  | _ => []

/-- `schedule_pause_effects`: toggles against the loaded schedule detail
record, and only when its id matches the targeted schedule. -/
def schedulePauseEffects (target : OperationTarget) (app : App) : List Effect :=
  match target with
  | .Schedule sid =>
    match app.selected_schedule with
    | none => []
    | some schedule =>
      if schedule.schedule_id ≠ sid then []
      else [.PauseSchedule sid (schedule.state ≠ .Paused)]
  | _ => []

structure OperationEffectSpec where
  op : OperationId
  kind : KindId
  to_effects : OperationTarget → App → List Effect

def OPERATION_EFFECTS : List OperationEffectSpec :=
  [⟨.CancelWorkflow, .WorkflowExecution, workflowCancelEffects⟩,
   ⟨.TerminateWorkflow, .WorkflowExecution, workflowTerminateEffects⟩,
   ⟨.TriggerSchedule, .Schedule, scheduleTriggerEffects⟩,
   ⟨.DeleteSchedule, .Schedule, scheduleDeleteEffects⟩,
   ⟨.PauseSchedule, .Schedule, schedulePauseEffects⟩]

/-- `operation_effect_spec`. -/
def operationEffectSpec (op : OperationId) (kind : KindId) :
    Option OperationEffectSpec :=
  OPERATION_EFFECTS.find? (fun s => decide (s.op = op) && decide (s.kind = kind))

/-! ### Reducer helpers (src/app.rs) -/

/-- `App::current_kind_id`. -/
def App.currentKindId (app : App) : KindId :=
  match app.view with
  | .Collection kind => kind
  | .Detail kind => kind

/-- `App::is_detail_view`. -/
def App.isDetailView (app : App) : Bool :=
  match app.view with
  | .Detail _ => true
  | _ => false

/-- `App::page_height`: clamped to a fixed constant in the source. -/
def App.pageHeight (_app : App) : Nat := 20

/-- `App::selected_workflow_summary`. -/
def App.selectedWorkflowSummary (app : App) : Option WorkflowSummary :=
  match app.view with
  | .Collection .WorkflowExecution => do
    let workflows ← app.workflows.dataOf
    let idx ← app.workflow_table_state.selected
    workflows.get? idx
  | .Detail .WorkflowExecution =>
    (app.selected_workflow).map (fun d => d.summary)
  | _ => none

/-- `App::selected_schedule_summary`. -/
def App.selectedScheduleSummary (app : App) : Option Schedule :=
  match app.view with
  | .Collection .Schedule => do
    let schedules ← app.schedules.dataOf
    let idx ← app.schedule_table_state.selected
    schedules.get? idx
  | .Detail .Schedule => app.selected_schedule
  | _ => none

/-- `App::navigate_up`. -/
def App.navigateUp (app : App) : App :=
  match app.view with
  | .Collection .WorkflowExecution =>
    { app with workflow_table_state := app.workflow_table_state.selectPrevious }
  | .Collection .Schedule =>
    { app with schedule_table_state := app.schedule_table_state.selectPrevious }
  | _ => app

/-- `App::navigate_down`: a no-op on an empty (or unloaded) collection. -/
def App.navigateDown (app : App) : App :=
  match app.view with
  | .Collection .WorkflowExecution =>
    if ((app.workflows.dataOf.map List.length).getD 0) = 0 then app
    else { app with workflow_table_state := app.workflow_table_state.selectNext }
  | .Collection .Schedule =>
    if ((app.schedules.dataOf.map List.length).getD 0) = 0 then app
    else { app with schedule_table_state := app.schedule_table_state.selectNext }
  | _ => app

/-- `App::navigate_top` (also leaves the pending-g chord). -/
def App.navigateTop (app : App) : App :=
  let app := { app with input_mode := .Normal }
  match app.view with
  | .Collection .WorkflowExecution =>
    { app with workflow_table_state := app.workflow_table_state.selectFirst }
  | .Collection .Schedule =>
    { app with schedule_table_state := app.schedule_table_state.selectFirst }
  | _ => app

/-- `App::navigate_bottom`. -/
def App.navigateBottom (app : App) : App :=
  match app.view with
  | .Collection .WorkflowExecution =>
    { app with workflow_table_state := app.workflow_table_state.selectLast }
  | .Collection .Schedule =>
    { app with schedule_table_state := app.schedule_table_state.selectLast }
  | _ => app

/-- `App::reset_backoff`. -/
def App.resetBackoff (app : App) : App :=
  { app with error_count := 0, polling_interval := app.base_polling_interval }

/-- `App::apply_backoff`: doubling per error, exponent capped at 5,
interval capped at 60 seconds; the u64 seconds multiply wraps. -/
def App.applyBackoff (app : App) : App :=
  let multiplier := 2 ^ (min app.error_count 5)
  let backoffSecs := (app.base_polling_interval * multiplier) % 2 ^ 64
  { app with polling_interval := min backoffSecs 60 }

/-- `App::maybe_load_more`: the pagination look-ahead guard. -/
def App.maybeLoadMore (app : App) : App × List Effect :=
  if app.view ≠ .Collection .WorkflowExecution ∨ app.loading_more ∨
      app.next_page_token.isEmpty then
    (app, [])
  else
    match app.workflows.dataOf, app.workflow_table_state.selected with
    | some workflows, some selected =>
      if selected + 5 ≥ workflows.length then
        ({ app with loading_more := true }, [.LoadMoreWorkflows])
      else (app, [])
    | _, _ => (app, [])

/-- `App::load_workflow_tab_data`: lazily fetched tab content. -/
def App.loadWorkflowTabData (app : App) : App × List Effect :=
  match app.selected_workflow with
  | some wf =>
    match app.workflow_detail_tab with
    | 2 => (app, [.LoadHistory wf.summary.workflow_id (some wf.summary.run_id)])
    | 4 => ({ app with task_queue_detail := .Loading },
            [.LoadTaskQueueDetail wf.summary.task_queue])
    | _ => (app, [])
  | none => (app, [])

/-- `App::refresh_current_view`. -/
def App.refreshCurrentView (app : App) : App × List Effect :=
  match app.view with
  | .Collection .WorkflowExecution => (app, [.LoadWorkflows, .LoadWorkflowCount])
  | .Detail .WorkflowExecution =>
    match app.selected_workflow with
    | some wf =>
      (app, [.LoadWorkflowDetail wf.summary.workflow_id (some wf.summary.run_id)])
    | none => (app, [])
  | .Collection .Schedule => (app, [.LoadSchedules])
  | .Detail .Schedule =>
    match app.selected_schedule with
    | some sch => (app, [.LoadScheduleDetail sch.schedule_id])
    | none => (app, [])

/-- `App::set_kind_query`. -/
def App.setKindQuery (app : App) (kind : KindId) (query : Option Str) : App :=
  match query with
  | some q => { app with search_queries := app.search_queries.insertK kind q }
  | none => { app with search_queries := app.search_queries.removeK kind }

/-- `workflow_tab_from_param` (tab names are matched lowercased; the
deep-link tab values of interest are ASCII). -/
def workflowTabFromParam (tab : Str) : Nat :=
  let t := tab.map Char.toLower
  if t = "summary".data then 0
  else if t = "io".data ∨ t = "input".data ∨ t = "output".data ∨
      t = "input-output".data ∨ t = "input_output".data then 1
  else if t = "history".data then 2
  else if t = "pending".data ∨ t = "pending-activities".data ∨
      t = "pending_activities".data ∨ t = "activities".data then 3
  else if t = "task-queue".data ∨ t = "task_queue".data ∨ t = "taskqueue".data then 4
  else 0

/-- `escape_single_quotes`: each single quote becomes backslash-quote. -/
def escapeSingleQuotes (input : Str) : Str :=
  (input.map (fun c => if c = '\'' then ['\\', '\''] else [c])).flatten

/-- `combine_schedule_workflow_query`: the schedule-to-executions filter
composition rule. -/
def combineScheduleWorkflowQuery (scheduleId : Str) (extra : Option Str) : Str :=
  let base := "TemporalScheduledById = '".data ++ escapeSingleQuotes scheduleId ++ ['\'']
  match extra with
  | none => base
  | some e =>
    let trimmed := (e.dropWhile Char.isWhitespace).reverse.dropWhile Char.isWhitespace |>.reverse
    if trimmed.isEmpty then base
    else '(' :: base ++ ") AND (".data ++ trimmed ++ [')']

/-- `App::apply_location`: applying a deep-link target; on a namespace
change all kind-scoped state is cleared first. -/
def App.applyLocation (app : App) (now : Nat) (location : Location) :
    App × List Effect :=
  let app :=
    if app.nspace ≠ location.nspace then
      { app with
          nspace := location.nspace
          workflows := .NotLoaded
          schedules := .NotLoaded
          workflow_history := .NotLoaded
          task_queue_detail := .NotLoaded
          workflow_table_state := .default
          schedule_table_state := .default
          selected_workflow := none
          selected_schedule := none
          workflow_detail_tab := 0
          detail_scroll := 0
          next_page_token := []
          loading_more := false
          search_queries := .empty }
    else app
  match location.leaf with
  | none =>
    ({ app with last_error := some ("invalid uri: missing route".data, now) }, [])
  | some (.Workflows route) =>
    match route with
    | .Collection query =>
      let app := app.setKindQuery .WorkflowExecution query
      ({ app with active_tab := .Workflows, view := .Collection .WorkflowExecution },
       [.LoadWorkflows, .LoadWorkflowCount])
    | .Detail wfid run tab =>
      ({ app with
          active_tab := .Workflows
          view := .Detail .WorkflowExecution
          workflow_detail_tab := (tab.map workflowTabFromParam).getD 0
          detail_scroll := 0
          workflow_history := .Loading
          task_queue_detail := .NotLoaded },
       [.LoadWorkflowDetail wfid run, .LoadHistory wfid run])
    | .Activities wfid _ =>
      ({ app with
          active_tab := .Workflows
          view := .Detail .WorkflowExecution
          workflow_detail_tab := 3
          detail_scroll := 0
          workflow_history := .Loading
          task_queue_detail := .NotLoaded },
       [.LoadWorkflowDetail wfid none, .LoadHistory wfid none])
  | some (.Schedules route) =>
    match route with
    | .Collection query =>
      let app := app.setKindQuery .Schedule query
      ({ app with active_tab := .Schedules, view := .Collection .Schedule },
       [.LoadSchedules])
    | .Detail sid =>
      ({ app with
          active_tab := .Schedules
          view := .Detail .Schedule
          detail_scroll := 0 },
       [.LoadScheduleDetail sid])
    | .Workflows sid query =>
      let combined := combineScheduleWorkflowQuery sid query
      let app := app.setKindQuery .WorkflowExecution (some combined)
      ({ app with active_tab := .Workflows, view := .Collection .WorkflowExecution },
       [.LoadWorkflows, .LoadWorkflowCount])

/-- `App::handle_select`: selecting a row opens the detail view and emits
the fetches that populate it; the row lookup is bounds-checked. -/
def App.handleSelect (app : App) : App × List Effect :=
  match app.view with
  | .Collection .WorkflowExecution =>
    match app.workflows.dataOf with
    | some workflows =>
      match app.workflow_table_state.selected with
      | some idx =>
        match workflows.get? idx with
        | some wf =>
          ({ app with
              view := .Detail .WorkflowExecution
              workflow_detail_tab := 0
              workflow_history := .Loading
              task_queue_detail := .NotLoaded
              detail_scroll := 0 },
           [.LoadWorkflowDetail wf.workflow_id (some wf.run_id),
            .LoadHistory wf.workflow_id (some wf.run_id)])
        | none => (app, [])
      | none => (app, [])
    | none => (app, [])
  | .Collection .Schedule =>
    match app.schedules.dataOf with
    | some schedules =>
      match app.schedule_table_state.selected with
      | some idx =>
        match schedules.get? idx with
        | some sch =>
          ({ app with view := .Detail .Schedule, detail_scroll := 0 },
           [.LoadScheduleDetail sch.schedule_id])
        | none => (app, [])
      | none => (app, [])
    | none => (app, [])
  | _ => (app, [])

/-- `App::handle_back`. -/
def App.handleBack (app : App) : App × List Effect :=
  match app.view with
  | .Detail .WorkflowExecution =>
    ({ app with
        view := .Collection .WorkflowExecution
        selected_workflow := none
        workflow_history := .NotLoaded }, [])
  | .Detail .Schedule =>
    ({ app with view := .Collection .Schedule, selected_schedule := none }, [])
  | _ => (app, [])

/-- `App::run_operation`: resolves the operation in the current kind,
requires a selected target, and either opens the Confirm overlay (for a
confirm-flagged operation) or invokes the effect producer directly. -/
def App.runOperation (app : App) (now : Nat) (opId : OperationId) :
    App × List Effect :=
  let kind := app.currentKindId
  match operationSpec kind opId with
  | none => (app, [])
  | some spec =>
    match operationEffectSpec opId kind with
    | none => (app, [])
    | some effectSpec =>
      match kind with
      | .WorkflowExecution =>
        match app.selectedWorkflowSummary with
        | none =>
          ({ app with last_error := some ("no workflow selected".data, now) }, [])
        | some wf =>
          let target := OperationTarget.Workflow wf.workflow_id (some wf.run_id)
          if spec.requires_confirm then
            ({ app with overlay := .Confirm (.Operation ⟨kind, opId, target⟩) }, [])
          else (app, effectSpec.to_effects target app)
      | .Schedule =>
        match app.selectedScheduleSummary with
        | none =>
          ({ app with last_error := some ("no schedule selected".data, now) }, [])
        | some sch =>
          let target := OperationTarget.Schedule sch.schedule_id
          if spec.requires_confirm then
            ({ app with overlay := .Confirm (.Operation ⟨kind, opId, target⟩) }, [])
          else (app, effectSpec.to_effects target app)

/-- Rust `str::trim` (the command strings of interest use ASCII spaces). -/
def strTrim (s : Str) : Str :=
  ((s.dropWhile Char.isWhitespace).reverse.dropWhile Char.isWhitespace).reverse

/-- Rust `str::splitn(2, ' ')`: the first piece and the optional rest. -/
def splitN2Space (s : Str) : Str × Option Str :=
  match splitOnceChar ' ' s with
  | some p => (p.1, some p.2)
  | none => (s, none)

def formatUriError : UriError → Str
  | .InvalidScheme => "invalid scheme".data
  | .InvalidAuthority => "invalid authority".data
  | .MissingNamespace => "missing namespace".data
  | .InvalidPath => "invalid path".data
  | .UnsupportedRoute => "unsupported route".data

/-- `App::execute_command` (the `:` command line; command words are
lowercased, ASCII here). -/
def App.executeCommand (app : App) (now : Nat) (cmd : Str) : App × List Effect :=
  let parts := splitN2Space (strTrim cmd)
  let command := parts.1.map Char.toLower
  let args := parts.2.map strTrim
  if command = "workflows".data ∨ command = "wf".data then
    ({ app with active_tab := .Workflows, view := .Collection .WorkflowExecution },
     [.LoadWorkflows])
  else if command = "schedules".data ∨ command = "sch".data then
    ({ app with active_tab := .Schedules, view := .Collection .Schedule },
     [.LoadSchedules])
  else if command = "signal".data ∨ command = "sig".data then
    match args with
    | some signalArgs =>
      let sp := splitN2Space signalArgs
      match app.selectedWorkflowSummary with
      | some wf =>
        (app, [.SignalWorkflow wf.workflow_id (some wf.run_id) sp.1 sp.2])
      | none =>
        ({ app with last_error := some ("no workflow selected".data, now) }, [])
    | none =>
      ({ app with
          last_error := some ("usage: :signal <name> [json-input]".data, now) }, [])
  else if command = "open".data ∨ command = "goto".data then
    match args with
    | some uri =>
      match parseDeepLink uri with
      | .ok location => app.applyLocation now location
      | .error err =>
        ({ app with
            last_error := some ("invalid uri: ".data ++ formatUriError err, now) }, [])
    | none =>
      ({ app with
          last_error :=
            some ("usage: :open temporal://tui/namespaces/<ns>/...".data, now) }, [])
  else if command = "namespace".data ∨ command = "ns".data then
    match args with
    | some nsName =>
      App.refreshCurrentView
        { app with
            nspace := nsName
            workflows := .NotLoaded
            schedules := .NotLoaded
            workflow_table_state := .default
            schedule_table_state := .default }
    | none =>
      ({ app with overlay := .NamespaceSelector }, [.LoadNamespaces])
  else if command = "quit".data ∨ command = ['q'] then
    ({ app with should_quit := true }, [.Quit])
  else if command = "help".data ∨ command = ['h'] then
    ({ app with overlay := .Help }, [])
  else
    ({ app with last_error := some ("unknown command: ".data ++ command, now) }, [])

/-- Rust `str::contains(&str)`: substring containment. -/
def strContains (needle : Str) : Str → Bool
  | [] => needle.isEmpty
  | c :: rest => leadsWith needle (c :: rest) || strContains needle rest

/-- One event of the `HistoryLoaded` extraction loop: pull input, output
and failure records out of the matching event types. -/
def applyHistoryEvent (detail : WorkflowDetail) (event : HistoryEvent) :
    WorkflowDetail :=
  let detail :=
    if strContains "WorkflowExecutionStarted".data event.event_type &&
        !(strContains "Child".data event.event_type) then
      match event.details.getKey "input".data with
      | some v => { detail with input := some v }
      | none => detail
    else detail
  let detail :=
    if strContains "WorkflowExecutionCompleted".data event.event_type &&
        !(strContains "Child".data event.event_type) then
      match event.details.getKey "result".data with
      | some v => { detail with output := some v }
      | none => detail
    else detail
  if strContains "WorkflowExecutionFailed".data event.event_type &&
      !(strContains "Child".data event.event_type) then
    match event.details.getKey "failure".data with
    | some failure =>
      { detail with
          failure := some (.mk
            (((failure.getKey "message".data).bind Json.asStr).getD [])
            (((failure.getKey "source".data).bind Json.asStr).getD [])
            ((failure.getKey "stack_trace".data).bind Json.asStr)
            none) }
    | none => detail
  else detail

/-- The lazy toast expiry performed at the start of every reducer step. -/
def clearStaleToast (now : Nat) (app : App) : App :=
  match app.last_error with
  | some (_, t0) => if now - t0 > 5 then { app with last_error := none } else app
  | none => app

/-- `App::update`, the pure reducer `(State, Action) → (State, [Effect])`.
The abstract `now` argument stands for the `Instant::now()` readings. -/
def update (now : Nat) (app : App) (action : Action) : App × List Effect :=
  let app := clearStaleToast now app
  match action with
  | .NavigateUp =>
    if app.isDetailView then
      ({ app with detail_scroll := app.detail_scroll - 1 }, [])
    else (app.navigateUp, [])
  | .NavigateDown =>
    (if app.isDetailView then
      { app with detail_scroll := min (app.detail_scroll + 1) U16_MAX }
    else app.navigateDown).maybeLoadMore
  | .NavigateTop =>
    if app.isDetailView then ({ app with detail_scroll := 0 }, [])
    else (app.navigateTop, [])
  | .NavigateBottom =>
    (if app.isDetailView then { app with detail_scroll := U16_MAX }
    else app.navigateBottom).maybeLoadMore
  | .PageUp =>
    if app.isDetailView then
      ({ app with detail_scroll := app.detail_scroll - app.pageHeight }, [])
    else (Nat.iterate App.navigateUp app.pageHeight app, [])
  | .PageDown =>
    (if app.isDetailView then
      { app with detail_scroll := min (app.detail_scroll + app.pageHeight) U16_MAX }
    else Nat.iterate App.navigateDown app.pageHeight app).maybeLoadMore
  | .Select => app.handleSelect
  | .Back => app.handleBack
  | .SwitchView viewType =>
    let app := { app with active_tab := viewType }
    match viewType with
    | .Workflows =>
      ({ app with view := .Collection .WorkflowExecution }, [.LoadWorkflows])
    | .Schedules =>
      ({ app with view := .Collection .Schedule }, [.LoadSchedules])
    | .TaskQueues => (app, [])
  | .EnterPendingG => ({ app with input_mode := .PendingG }, [])
  | .RunOperation opId => app.runOperation now opId
  | .OpenCommandInput =>
    ({ app with input_mode := .Command, input_buffer := [] }, [])
  | .OpenSearch =>
    ({ app with
        input_mode := .Search
        input_buffer := (app.search_queries.getK app.currentKindId).getD [] }, [])
  | .CloseOverlay =>
    if app.overlay ≠ .None then ({ app with overlay := .None }, [])
    else if app.input_mode ≠ .Normal then
      ({ app with input_mode := .Normal, input_buffer := [] }, [])
    else (app, [])
  | .SubmitCommandInput cmd =>
    let app := { app with input_mode := .Normal }
    let r := app.executeCommand now cmd
    ({ r.1 with input_buffer := [] }, r.2)
  | .UpdateInputBuffer buf => ({ app with input_buffer := buf }, [])
  | .SubmitSearch query =>
    let app := { app with input_mode := .Normal }
    let kind := app.currentKindId
    let app :=
      if query.isEmpty then
        { app with search_queries := app.search_queries.removeK kind }
      else { app with search_queries := app.search_queries.insertK kind query }
    let app := { app with input_buffer := [] }
    match kind with
    | .WorkflowExecution => (app, [.LoadWorkflows, .LoadWorkflowCount])
    | .Schedule => (app, [.LoadSchedules])
  | .ToggleHelp =>
    ({ app with overlay := if app.overlay = .Help then .None else .Help }, [])
  | .SwitchNamespace ns =>
    let app :=
      { app with
          nspace := ns
          overlay := .None
          workflows := .NotLoaded
          schedules := .NotLoaded
          workflow_table_state := .default
          schedule_table_state := .default
          selected_workflow := none
          selected_schedule := none
          search_queries := .empty }
    match app.currentKindId with
    | .WorkflowExecution =>
      ({ app with view := .Collection .WorkflowExecution },
       [.LoadWorkflows, .LoadWorkflowCount])
    | .Schedule =>
      ({ app with view := .Collection .Schedule }, [.LoadSchedules])
  | .NextTab =>
    if app.view = .Detail .WorkflowExecution then
      let tabCount := max (detailTabCount .WorkflowExecution) 1
      App.loadWorkflowTabData
        { app with
            workflow_detail_tab := (app.workflow_detail_tab + 1) % tabCount
            detail_scroll := 0 }
    else (app, [])
  | .PrevTab =>
    if app.view = .Detail .WorkflowExecution then
      let tabCount := max (detailTabCount .WorkflowExecution) 1
      App.loadWorkflowTabData
        { app with
            workflow_detail_tab :=
              if app.workflow_detail_tab = 0 then tabCount - 1
              else app.workflow_detail_tab - 1
            detail_scroll := 0 }
    else (app, [])
  | .OpenScheduleWorkflows =>
    match app.selectedScheduleSummary with
    | some schedule =>
      app.applyLocation now
        ⟨app.nspace, [.Schedules (.Workflows schedule.schedule_id none)]⟩
    | none => (app, [])
  | .OpenWorkflowActivities =>
    match app.selectedWorkflowSummary with
    | some wf =>
      app.applyLocation now
        ⟨app.nspace, [.Workflows (.Activities wf.workflow_id none)]⟩
    | none => (app, [])
  | .WorkflowsLoaded workflows nextPageToken =>
    let app :=
      { app with
          workflows := .Loaded workflows
          next_page_token := nextPageToken
          loading_more := false
          connection_status := .Connected }
    let app := app.resetBackoff
    let app := { app with last_refresh := some now }
    let app :=
      if app.workflow_table_state.selected = none then
        { app with workflow_table_state := app.workflow_table_state.selectFirst }
      else app
    (app, [])
  | .MoreWorkflowsLoaded workflows nextPageToken =>
    let app :=
      match app.workflows with
      | .Loaded existing => { app with workflows := .Loaded (existing ++ workflows) }
      | _ => app
    let app :=
      { app with
          next_page_token := nextPageToken
          loading_more := false
          connection_status := .Connected }
    (app.resetBackoff, [])
  | .WorkflowDetailLoaded detail =>
    let detail :=
      match app.selected_workflow with
      | some existing =>
        let detail :=
          if detail.input.isNone then { detail with input := existing.input }
          else detail
        let detail :=
          if detail.output.isNone then { detail with output := existing.output }
          else detail
        let detail :=
          match detail.failure with
          | none => { detail with failure := existing.failure }
          | some _ => detail
        if detail.history_length = 0 ∧ existing.history_length > 0 then
          { detail with history_length := existing.history_length }
        else detail
      | none => detail
    ({ app with selected_workflow := some detail }, [])
  | .HistoryLoaded events =>
    let app :=
      match app.selected_workflow with
      | some detail =>
        let detail := events.foldl applyHistoryEvent detail
        { app with
            selected_workflow :=
              some { detail with history_length := events.length } }
      | none => app
    ({ app with workflow_history := .Loaded events }, [])
  | .NamespacesLoaded namespaces =>
    let app := { app with namespaces := namespaces }
    if app.namespace_selector_state.selected = none then
      ({ app with
          namespace_selector_state := app.namespace_selector_state.selectFirst },
       [])
    else (app, [])
  | .SchedulesLoaded schedules =>
    let app :=
      { app with schedules := .Loaded schedules, last_refresh := some now }
    if app.schedule_table_state.selected = none then
      ({ app with schedule_table_state := app.schedule_table_state.selectFirst },
       [])
    else (app, [])
  | .ScheduleDetailLoaded schedule =>
    ({ app with selected_schedule := some schedule }, [])
  | .WorkflowCountLoaded count => ({ app with workflow_count := some count }, [])
  | .TaskQueueDetailLoaded tq =>
    ({ app with task_queue_detail := .Loaded tq }, [])
  | .Refresh => app.refreshCurrentView
  | .Quit => ({ app with should_quit := true }, [.Quit])
  | .Tick =>
    if app.polling_enabled &&
        ((app.last_refresh.map (fun t => decide (now - t ≥ app.polling_interval))).getD true) then
      app.refreshCurrentView
    else (app, [])
  | .Error msg =>
    let app :=
      { app with
          last_error := some (msg, now)
          error_count := (app.error_count + 1) % 2 ^ 32 }
    let app := app.applyBackoff
    if app.connection_status = .Connected then
      ({ app with connection_status := .Error msg }, [])
    else (app, [])
  | .ClearError => ({ app with last_error := none }, [])
  | .TogglePolling => ({ app with polling_enabled := !app.polling_enabled }, [])

/-! ## Shared helper lemmas -/

/-- The toast-expiry preamble either leaves the state alone or only drops
the stored toast. -/
theorem clearStaleToast_eq (now : Nat) (app : App) :
    clearStaleToast now app = app ∨
    clearStaleToast now app = { app with last_error := none } := by
  unfold clearStaleToast
  cases h : app.last_error with
  | none => exact Or.inl rfl
  | some p =>
    by_cases hT : now - p.2 > 5
    · right
      cases p
      simp [hT]
    · left
      cases p
      simp_all

/-! ## Claim C3: schedule-to-executions query composition -/

theorem escape_nil : escapeSingleQuotes [] = [] := rfl

theorem escape_cons (c : Char) (t : Str) :
    escapeSingleQuotes (c :: t) =
      (if c = '\'' then ['\\', '\''] else [c]) ++ escapeSingleQuotes t := by
  by_cases hc : c = '\'' <;> simp [escapeSingleQuotes, hc]

/-- Every single quote in the string sits right after an escaping
backslash. -/
def quoteEscapedIn (l : Str) : Prop :=
  ∀ i : Nat, l[i]? = some '\'' → ∃ j, i = j + 1 ∧ l[j]? = some '\\'

theorem quoteEscapedIn_escape (s : Str) :
    quoteEscapedIn (escapeSingleQuotes s) := by
  induction s with
  | nil =>
    intro i hi
    rw [escape_nil] at hi
    simp at hi
  | cons c t ih =>
    intro i hi
    simp only [escape_cons] at hi ⊢
    by_cases hc : c = '\''
    · subst hc
      simp only [if_pos rfl, List.cons_append, List.nil_append] at hi ⊢
      cases i with
      | zero => simp at hi
      | succ i0 =>
        cases i0 with
        | zero => exact ⟨0, rfl, rfl⟩
        | succ i1 =>
          obtain ⟨j, hj1, hj2⟩ := ih i1 (by simpa using hi)
          exact ⟨j + 2, by omega, by simpa using hj2⟩
    · simp only [if_neg hc, List.cons_append, List.nil_append] at hi ⊢
      cases i with
      | zero =>
        simp only [List.getElem?_cons_zero, Option.some.injEq] at hi
        exact absurd hi hc
      | succ i0 =>
        obtain ⟨j, hj1, hj2⟩ := ih i0 (by simpa using hi)
        exact ⟨j + 1, by omega, by simpa using hj2⟩

/-- Claim C3, counterexample: the composed schedule-to-executions filter
for schedule id nightly with user filter Status = 'Failed' is not the
string the claim names; the code derives the filter from the
TemporalScheduledById search attribute, not ScheduledBy. -/
theorem c3_query_composition_counterexample :
    combineScheduleWorkflowQuery "nightly".data (some "Status = 'Failed'".data) ≠
      "(ScheduledBy = 'nightly') AND (Status = 'Failed')".data := by
  decide

/-- Claim C3 (amended): the derived filter uses the field name
TemporalScheduledById; with schedule id nightly and user filter
Status = 'Failed' the composition is exactly
(TemporalScheduledById = 'nightly') AND (Status = 'Failed'); with no user
filter it is exactly TemporalScheduledById = 'nightly'; and for every
schedule id the derived filter embeds the id with every single quote
escaped by a preceding backslash. -/
theorem c3_query_composition :
    combineScheduleWorkflowQuery "nightly".data (some "Status = 'Failed'".data) =
      "(TemporalScheduledById = 'nightly') AND (Status = 'Failed')".data ∧
    combineScheduleWorkflowQuery "nightly".data none =
      "TemporalScheduledById = 'nightly'".data ∧
    (∀ id : Str, combineScheduleWorkflowQuery id none =
      "TemporalScheduledById = '".data ++ escapeSingleQuotes id ++ ['\'']) ∧
    (∀ id : Str, quoteEscapedIn (escapeSingleQuotes id)) := by
  refine ⟨by decide, by decide, fun id => rfl, fun id => quoteEscapedIn_escape id⟩

/-! ## Claim C4: exponential polling backoff -/

/-- Fold a list of Actions through the reducer, keeping the state. -/
def runActions (now : Nat) (acts : List Action) (app : App) : App :=
  acts.foldl (fun a act => (update now a act).1) app

theorem error_step (now : Nat) (msg : Str) (app : App) :
    (update now app (.Error msg)).1.error_count = (app.error_count + 1) % 2 ^ 32 ∧
    (update now app (.Error msg)).1.base_polling_interval =
      app.base_polling_interval ∧
    (update now app (.Error msg)).1.polling_interval =
      min ((app.base_polling_interval *
        2 ^ min ((app.error_count + 1) % 2 ^ 32) 5) % 2 ^ 64) 60 := by
  rcases clearStaleToast_eq now app with h | h <;>
    simp only [update, h, App.applyBackoff] <;>
    split <;> simp

theorem c4_aux (now : Nat) (B : Nat) (msgs : List Str) :
    ∀ app : App, app.base_polling_interval = B →
      app.error_count + msgs.length < 2 ^ 32 →
      (runActions now (msgs.map Action.Error) app).error_count =
        app.error_count + msgs.length ∧
      (runActions now (msgs.map Action.Error) app).base_polling_interval = B ∧
      (msgs ≠ [] →
        (runActions now (msgs.map Action.Error) app).polling_interval =
          min ((B * 2 ^ min (app.error_count + msgs.length) 5) % 2 ^ 64) 60) := by
  induction msgs with
  | nil =>
    intro app hB _
    exact ⟨by simp [runActions], by simpa [runActions] using hB,
           fun hne => absurd rfl hne⟩
  | cons m t ih =>
    intro app hB hlt
    have hstep := error_step now m app
    have hcount1 : (app.error_count + 1) % 2 ^ 32 = app.error_count + 1 :=
      Nat.mod_eq_of_lt (by simp only [List.length_cons] at hlt; omega)
    have h1 : (update now app (.Error m)).1.error_count = app.error_count + 1 := by
      rw [hstep.1, hcount1]
    have h2 : (update now app (.Error m)).1.base_polling_interval = B := by
      rw [hstep.2.1, hB]
    have run_eq :
        runActions now ((m :: t).map Action.Error) app =
          runActions now (t.map Action.Error) (update now app (.Error m)).1 := by
      simp [runActions]
    obtain ⟨ih1, ih2, ih3⟩ := ih (update now app (.Error m)).1 h2
      (by rw [h1]; simp only [List.length_cons] at hlt; omega)
    refine ⟨?_, by rwa [run_eq], ?_⟩
    · rw [run_eq, ih1, h1]
      simp only [List.length_cons]
      omega
    · intro _
      cases t with
      | nil =>
        rw [run_eq]
        simp only [runActions, List.map_nil, List.foldl_nil, List.length_cons,
          List.length_nil]
        rw [hstep.2.2, hB, hcount1]
      | cons m2 t2 =>
        rw [run_eq, ih3 (by simp)]
        rw [h1]
        simp only [List.length_cons]
        ring_nf

/-- Claim C4: starting from base polling interval B (whole seconds, small
enough that the u64 seconds arithmetic cannot wrap) and error count 0,
processing N consecutive Error actions (N at least 1, below the u32
limit) leaves error count N and polling interval exactly
min(B * 2 ^ min(N, 5), 60) seconds. -/
theorem c4_backoff (now : Nat) (app : App) (B : Nat) (msgs : List Str)
    (hcount : app.error_count = 0)
    (hbase : app.base_polling_interval = B)
    (hne : msgs ≠ [])
    (hN : msgs.length < 2 ^ 32)
    (hB : B * 2 ^ 5 < 2 ^ 64) :
    (runActions now (msgs.map Action.Error) app).error_count = msgs.length ∧
    (runActions now (msgs.map Action.Error) app).polling_interval =
      min (B * 2 ^ min msgs.length 5) 60 := by
  obtain ⟨h1, _, h3⟩ := c4_aux now B msgs app hbase (by omega)
  refine ⟨by rw [h1, hcount, Nat.zero_add], ?_⟩
  have hint := h3 hne
  rw [hcount, Nat.zero_add] at hint
  rw [hint]
  congr 1
  apply Nat.mod_eq_of_lt
  calc B * 2 ^ min msgs.length 5
      ≤ B * 2 ^ 5 := by
        exact Nat.mul_le_mul_left B
          (Nat.pow_le_pow_right (by norm_num) (min_le_right _ _))
    _ < 2 ^ 64 := hB

/-- Witness for C4: seven consecutive errors from a fresh App (base 3s)
give error count 7 and polling interval min(3 * 32, 60) = 60. -/
theorem c4_backoff_witness :
    (runActions 0 ((List.replicate 7 "boom".data).map Action.Error)
        (App.new "ns".data)).error_count = 7 ∧
    (runActions 0 ((List.replicate 7 "boom".data).map Action.Error)
        (App.new "ns".data)).polling_interval = 60 := by
  have h := c4_backoff 0 (App.new "ns".data) 3 (List.replicate 7 "boom".data)
    rfl rfl (by decide) (by decide) (by decide)
  refine ⟨by simpa using h.1, ?_⟩
  have h2 := h.2
  norm_num at h2
  exact h2

/-! ## Claim C5: which loaded actions reset the backoff -/

/-- Claim C5, counterexample: a SchedulesLoaded action does not reset the
error count to 0 nor the polling interval to the base interval (here the
state has one recorded error and a doubled interval of 6s over base 3s). -/
theorem c5_reset_on_success_counterexample :
    (update 0 { App.new "ns".data with error_count := 1, polling_interval := 6 }
        (.SchedulesLoaded [])).1.error_count ≠ 0 ∧
    (update 0 { App.new "ns".data with error_count := 1, polling_interval := 6 }
        (.SchedulesLoaded [])).1.polling_interval ≠
      (update 0 { App.new "ns".data with error_count := 1, polling_interval := 6 }
          (.SchedulesLoaded [])).1.base_polling_interval := by
  decide

/-- Claim C5 (amended): only the WorkflowsLoaded and MoreWorkflowsLoaded
actions reset the error count to 0 and the polling interval to the base
interval; the other data-loaded actions (SchedulesLoaded,
ScheduleDetailLoaded, HistoryLoaded, NamespacesLoaded,
WorkflowCountLoaded, TaskQueueDetailLoaded) leave both unchanged. -/
theorem c5_reset_on_success (now : Nat) (app : App) :
    (∀ ws tok, (update now app (.WorkflowsLoaded ws tok)).1.error_count = 0 ∧
      (update now app (.WorkflowsLoaded ws tok)).1.polling_interval =
        app.base_polling_interval) ∧
    (∀ ws tok, (update now app (.MoreWorkflowsLoaded ws tok)).1.error_count = 0 ∧
      (update now app (.MoreWorkflowsLoaded ws tok)).1.polling_interval =
        app.base_polling_interval) ∧
    (∀ schs, (update now app (.SchedulesLoaded schs)).1.error_count =
        app.error_count ∧
      (update now app (.SchedulesLoaded schs)).1.polling_interval =
        app.polling_interval) ∧
    (∀ sch, (update now app (.ScheduleDetailLoaded sch)).1.error_count =
        app.error_count ∧
      (update now app (.ScheduleDetailLoaded sch)).1.polling_interval =
        app.polling_interval) ∧
    (∀ events, (update now app (.HistoryLoaded events)).1.error_count =
        app.error_count ∧
      (update now app (.HistoryLoaded events)).1.polling_interval =
        app.polling_interval) ∧
    (∀ nss, (update now app (.NamespacesLoaded nss)).1.error_count =
        app.error_count ∧
      (update now app (.NamespacesLoaded nss)).1.polling_interval =
        app.polling_interval) ∧
    (∀ n, (update now app (.WorkflowCountLoaded n)).1.error_count =
        app.error_count ∧
      (update now app (.WorkflowCountLoaded n)).1.polling_interval =
        app.polling_interval) ∧
    (∀ tq, (update now app (.TaskQueueDetailLoaded tq)).1.error_count =
        app.error_count ∧
      (update now app (.TaskQueueDetailLoaded tq)).1.polling_interval =
        app.polling_interval) := by
  refine ⟨fun ws tok => ?_, fun ws tok => ?_, fun schs => ?_, fun sch => ?_,
    fun events => ?_, fun nss => ?_, fun n => ?_, fun tq => ?_⟩ <;>
    rcases clearStaleToast_eq now app with h | h <;>
    simp only [update, h, App.resetBackoff] <;>
    constructor <;>
    (try split) <;> simp

/-! ## Claim C7: namespace switch -/

/-- Claim C7, counterexample: a SwitchNamespace action does not clear the
pagination state; starting from a state with a pending continuation token
and an in-flight load-more flag, both survive the switch. -/
theorem c7_switch_namespace_counterexample :
    ¬ ((update 0 { App.new "a".data with
          next_page_token := [1], loading_more := true }
        (.SwitchNamespace "b".data)).1.next_page_token = [] ∧
       (update 0 { App.new "a".data with
          next_page_token := [1], loading_more := true }
        (.SwitchNamespace "b".data)).1.loading_more = false) := by
  decide

/-- Claim C7 (amended): a SwitchNamespace action clears the collection
load states, row cursors, selected detail records and search queries,
closes any overlay, re-enters the current kind collection view and emits
its initial load Effects; the pagination state (continuation token and
loading_more flag) is left unchanged (it is refreshed only by the next
WorkflowsLoaded result). -/
theorem c7_switch_namespace (now : Nat) (app : App) (ns : Str) :
    (update now app (.SwitchNamespace ns)).1.workflows = .NotLoaded ∧
    (update now app (.SwitchNamespace ns)).1.schedules = .NotLoaded ∧
    (update now app (.SwitchNamespace ns)).1.workflow_table_state =
      .default ∧
    (update now app (.SwitchNamespace ns)).1.schedule_table_state =
      .default ∧
    (update now app (.SwitchNamespace ns)).1.selected_workflow = none ∧
    (update now app (.SwitchNamespace ns)).1.selected_schedule = none ∧
    (update now app (.SwitchNamespace ns)).1.search_queries = .empty ∧
    (update now app (.SwitchNamespace ns)).1.nspace = ns ∧
    (update now app (.SwitchNamespace ns)).1.overlay = .None ∧
    (update now app (.SwitchNamespace ns)).1.next_page_token =
      app.next_page_token ∧
    (update now app (.SwitchNamespace ns)).1.loading_more = app.loading_more ∧
    (update now app (.SwitchNamespace ns)).1.view =
      .Collection app.currentKindId ∧
    (update now app (.SwitchNamespace ns)).2 =
      (match app.currentKindId with
       | .WorkflowExecution => [.LoadWorkflows, .LoadWorkflowCount]
       | .Schedule => [.LoadSchedules]) := by
  rcases clearStaleToast_eq now app with h | h <;>
    cases hv : app.view with
    | Collection k => cases k <;> simp [update, h, App.currentKindId, hv]
    | Detail k => cases k <;> simp [update, h, App.currentKindId, hv]

/-! ## Claim C9: detail tab cycling -/

theorem next_tab_step (now : Nat) (a : App)
    (h : a.view = .Detail .WorkflowExecution) :
    (update now a .NextTab).1.view = .Detail .WorkflowExecution ∧
    (update now a .NextTab).1.workflow_detail_tab =
      (a.workflow_detail_tab + 1) % detailTabCount .WorkflowExecution ∧
    (update now a .NextTab).1.detail_scroll = 0 := by
  have hv2 : (clearStaleToast now a).view = .Detail .WorkflowExecution := by
    rcases clearStaleToast_eq now a with hc | hc <;> rw [hc] <;> exact h
  have htab : (clearStaleToast now a).workflow_detail_tab =
      a.workflow_detail_tab := by
    rcases clearStaleToast_eq now a with hc | hc <;> rw [hc]
  simp only [update, hv2, App.loadWorkflowTabData, eq_self_iff_true, if_true]
  cases hsel : (clearStaleToast now a).selected_workflow with
  | none =>
    simp [hsel, htab, detailTabCount, detailTabsForKind, WORKFLOW_DETAIL_TABS]
  | some wf =>
    simp only [hsel, htab]
    split <;>
      simp [detailTabCount, detailTabsForKind, WORKFLOW_DETAIL_TABS]

/-- Claim C9: in the workflow detail view (the kind with T = 5 tabs) a
next-tab action advances the tab index modulo the registry tab count and
resets scroll; T consecutive next-tab actions starting at tab 0 return
the index to 0; for the schedule kind (zero tabs in the registry)
next-tab and prev-tab change nothing beyond the generic toast expiry and
emit no Effects. -/
theorem c9_tab_cycling (now : Nat) (app : App) :
    (app.view = .Detail .WorkflowExecution →
      (update now app .NextTab).1.workflow_detail_tab =
        (app.workflow_detail_tab + 1) % detailTabCount .WorkflowExecution ∧
      (update now app .NextTab).1.detail_scroll = 0) ∧
    (app.view = .Detail .WorkflowExecution → app.workflow_detail_tab = 0 →
      (runActions now
        (List.replicate (detailTabCount .WorkflowExecution) Action.NextTab)
        app).workflow_detail_tab = 0) ∧
    (app.view = .Detail .Schedule →
      detailTabCount .Schedule = 0 ∧
      update now app .NextTab = (clearStaleToast now app, []) ∧
      update now app .PrevTab = (clearStaleToast now app, [])) := by
  refine ⟨fun hv => ⟨(next_tab_step now app hv).2.1, (next_tab_step now app hv).2.2⟩,
    fun hv h0 => ?_, fun hv => ⟨rfl, ?_, ?_⟩⟩
  · rw [show detailTabCount .WorkflowExecution = 5 from rfl]
    simp only [runActions, List.replicate, List.foldl_cons, List.foldl_nil]
    have s0 := next_tab_step now app hv
    have s1 := next_tab_step now _ s0.1
    have s2 := next_tab_step now _ s1.1
    have s3 := next_tab_step now _ s2.1
    have s4 := next_tab_step now _ s3.1
    rw [s4.2.1, s3.2.1, s2.2.1, s1.2.1, s0.2.1, h0]
    decide
  · rcases clearStaleToast_eq now app with hc | hc <;>
      simp [update, hc, hv]
  · rcases clearStaleToast_eq now app with hc | hc <;>
      simp [update, hc, hv]

/-- Witness for C9, at a fresh state put in the workflow detail view
(tab 0) and at one put in the schedule detail view. -/
theorem c9_tab_cycling_witness :
    (runActions 0
      (List.replicate (detailTabCount .WorkflowExecution) Action.NextTab)
      { App.new "ns".data with
          view := .Detail .WorkflowExecution }).workflow_detail_tab = 0 ∧
    update 0 { App.new "ns".data with view := .Detail .Schedule } .NextTab =
      (clearStaleToast 0 { App.new "ns".data with view := .Detail .Schedule },
       []) := by
  exact ⟨(c9_tab_cycling 0 _).2.1 rfl rfl, ((c9_tab_cycling 0 _).2.2 rfl).2.1⟩

/-! ## Claim C10: schedule pause toggles against the loaded detail -/

/-- Claim C10: invoking the pause/unpause operation in a schedule view
emits PauseSchedule(id, pause) with pause true exactly when the loaded
schedule detail record is not Paused; with no loaded detail record, or a
detail record whose id differs from the targeted list row, it emits
nothing. -/
theorem c10_schedule_pause (now : Nat) (app : App) :
    (∀ det, app.view = .Detail .Schedule → app.selected_schedule = some det →
      ∃ pause : Bool,
        (update now app (.RunOperation .PauseSchedule)).2 =
          [.PauseSchedule det.schedule_id pause] ∧
        (pause = true ↔ det.state ≠ .Paused)) ∧
    (app.view = .Detail .Schedule → app.selected_schedule = none →
      (update now app (.RunOperation .PauseSchedule)).2 = []) ∧
    (∀ schs i row, app.view = .Collection .Schedule →
      app.schedules = .Loaded schs →
      app.schedule_table_state.selected = some i →
      schs.get? i = some row →
      (app.selected_schedule = none →
        (update now app (.RunOperation .PauseSchedule)).2 = []) ∧
      (∀ det, app.selected_schedule = some det →
        det.schedule_id ≠ row.schedule_id →
        (update now app (.RunOperation .PauseSchedule)).2 = []) ∧
      (∀ det, app.selected_schedule = some det →
        det.schedule_id = row.schedule_id →
        ∃ pause : Bool,
          (update now app (.RunOperation .PauseSchedule)).2 =
            [.PauseSchedule row.schedule_id pause] ∧
          (pause = true ↔ det.state ≠ .Paused))) := by
  refine ⟨fun det hv hsel => ?_, fun hv hsel => ?_,
    fun schs i row hv hws hcur hrow =>
      ⟨fun hsel => ?_, fun det hsel hne => ?_, fun det hsel heq => ?_⟩⟩
  · rcases clearStaleToast_eq now app with hc | hc <;>
      cases hstate : det.state <;>
      simp [update, hc, App.runOperation, App.currentKindId, hv, operationSpec,
        kindOperations, SCHEDULE_OPS, operationEffectSpec, OPERATION_EFFECTS,
        App.selectedScheduleSummary, hsel, schedulePauseEffects, hstate]
  · rcases clearStaleToast_eq now app with hc | hc <;>
      simp [update, hc, App.runOperation, App.currentKindId, hv, operationSpec,
        kindOperations, SCHEDULE_OPS, operationEffectSpec, OPERATION_EFFECTS,
        App.selectedScheduleSummary, hsel, schedulePauseEffects]
  · simp only [List.get?_eq_getElem?] at hrow
    rcases clearStaleToast_eq now app with hc | hc <;>
      simp [update, hc, App.runOperation, App.currentKindId, hv, operationSpec,
        kindOperations, SCHEDULE_OPS, operationEffectSpec, OPERATION_EFFECTS,
        App.selectedScheduleSummary, LoadState.dataOf, hws, hcur, hrow, hsel,
        schedulePauseEffects]
  · simp only [List.get?_eq_getElem?] at hrow
    rcases clearStaleToast_eq now app with hc | hc <;>
      simp [update, hc, App.runOperation, App.currentKindId, hv, operationSpec,
        kindOperations, SCHEDULE_OPS, operationEffectSpec, OPERATION_EFFECTS,
        App.selectedScheduleSummary, LoadState.dataOf, hws, hcur, hrow, hsel,
        schedulePauseEffects, hne]
  · simp only [List.get?_eq_getElem?] at hrow
    rcases clearStaleToast_eq now app with hc | hc <;>
      cases hstate : det.state <;>
      simp [update, hc, App.runOperation, App.currentKindId, hv, operationSpec,
        kindOperations, SCHEDULE_OPS, operationEffectSpec, OPERATION_EFFECTS,
        App.selectedScheduleSummary, LoadState.dataOf, hws, hcur, hrow, hsel,
        schedulePauseEffects, heq, hstate]

/-- Witness for C10: with the detail record for schedule nightly loaded
in Active state, invoking pause emits PauseSchedule("nightly", true). -/
theorem c10_schedule_pause_witness :
    ∃ pause : Bool,
      (update 0
        { App.new "ns".data with
            view := .Detail .Schedule
            selected_schedule :=
              some ⟨"nightly".data, "W".data, .Active, [], none, 0, []⟩ }
        (.RunOperation .PauseSchedule)).2 =
        [.PauseSchedule "nightly".data pause] ∧
      (pause = true ↔ (ScheduleState.Active : ScheduleState) ≠ .Paused) := by
  exact (c10_schedule_pause 0
    { App.new "ns".data with
        view := .Detail .Schedule
        selected_schedule :=
          some ⟨"nightly".data, "W".data, .Active, [], none, 0, []⟩ }).1
    ⟨"nightly".data, "W".data, .Active, [], none, 0, []⟩ rfl rfl

/-! ## Claim C2: confirmation gating -/

/-- The operation target run_operation resolves in the current kind (the
selected list row or the open detail record). -/
def App.selectedTarget (app : App) : KindId → Option OperationTarget
  | .WorkflowExecution =>
    app.selectedWorkflowSummary.map
      (fun wf => .Workflow wf.workflow_id (some wf.run_id))
  | .Schedule =>
    app.selectedScheduleSummary.map (fun s => .Schedule s.schedule_id)

/-- Claim C2: for an operation whose OperationSpec is flagged
requires_confirm, a RunOperation action with a selected target emits no
Effect at all and only opens the Confirm overlay carrying
(kind, operation, target); a CloseOverlay action on any state with an
open overlay clears the overlay and emits no Effect. -/
theorem c2_confirm_gating (now : Nat) (app : App) (op : OperationId)
    (spec : OperationSpec) (t : OperationTarget)
    (hspec : operationSpec app.currentKindId op = some spec)
    (hconfirm : spec.requires_confirm = true)
    (htarget : app.selectedTarget app.currentKindId = some t) :
    ((update now app (.RunOperation op)).2 = [] ∧
     (update now app (.RunOperation op)).1.overlay =
       .Confirm (.Operation ⟨app.currentKindId, op, t⟩)) ∧
    (∀ app2 : App, app2.overlay ≠ .None →
      (update now app2 .CloseOverlay).1.overlay = .None ∧
      (update now app2 .CloseOverlay).2 = []) := by
  constructor
  · have hck : (clearStaleToast now app).currentKindId = app.currentKindId := by
      rcases clearStaleToast_eq now app with hc | hc <;> rw [hc] <;> rfl
    have hsw : (clearStaleToast now app).selectedWorkflowSummary =
        app.selectedWorkflowSummary := by
      rcases clearStaleToast_eq now app with hc | hc <;> rw [hc] <;> rfl
    have hss : (clearStaleToast now app).selectedScheduleSummary =
        app.selectedScheduleSummary := by
      rcases clearStaleToast_eq now app with hc | hc <;> rw [hc] <;> rfl
    simp only [update, App.runOperation, hck]
    cases hk : app.currentKindId with
    | WorkflowExecution =>
      rw [hk] at hspec htarget
      simp only [App.selectedTarget] at htarget
      obtain ⟨wf, hwf, ht⟩ := Option.map_eq_some'.mp htarget
      cases op <;>
        simp_all [operationSpec, kindOperations, WORKFLOW_OPS, SCHEDULE_OPS,
          operationEffectSpec, OPERATION_EFFECTS, List.find?]
    | Schedule =>
      rw [hk] at hspec htarget
      simp only [App.selectedTarget] at htarget
      obtain ⟨sch, hsch, ht⟩ := Option.map_eq_some'.mp htarget
      cases op <;>
        simp_all [operationSpec, kindOperations, WORKFLOW_OPS, SCHEDULE_OPS,
          operationEffectSpec, OPERATION_EFFECTS, List.find?]
  · intro app2 hov
    rcases clearStaleToast_eq now app2 with hc | hc <;>
      simp [update, hc, hov]

/-- Witness for C2: cancel-workflow (a confirm-flagged operation) on a
collection state with one loaded execution row selected only opens the
Confirm overlay and emits nothing. -/
theorem c2_confirm_gating_witness :
    (update 0
      { App.new "ns".data with
          workflows :=
            .Loaded [⟨"wf1".data, "r1".data, "T".data, .Running, 0, none,
              "q".data⟩]
          workflow_table_state := ⟨0, some 0⟩ }
      (.RunOperation .CancelWorkflow)).2 = [] ∧
    (update 0
      { App.new "ns".data with
          workflows :=
            .Loaded [⟨"wf1".data, "r1".data, "T".data, .Running, 0, none,
              "q".data⟩]
          workflow_table_state := ⟨0, some 0⟩ }
      (.RunOperation .CancelWorkflow)).1.overlay =
      .Confirm (.Operation ⟨.WorkflowExecution, .CancelWorkflow,
        .Workflow "wf1".data (some "r1".data)⟩) := by
  exact (c2_confirm_gating 0
    { App.new "ns".data with
        workflows :=
          .Loaded [⟨"wf1".data, "r1".data, "T".data, .Running, 0, none,
            "q".data⟩]
        workflow_table_state := ⟨0, some 0⟩ }
    .CancelWorkflow ⟨.CancelWorkflow, "Cancel workflow".data, 'c', true⟩
    (.Workflow "wf1".data (some "r1".data)) rfl rfl rfl).1

/-! ## Claim C6: pagination look-ahead -/

theorem navDown_preserves (a : App) :
    (App.navigateDown a).view = a.view ∧
    (App.navigateDown a).workflows = a.workflows ∧
    (App.navigateDown a).loading_more = a.loading_more ∧
    (App.navigateDown a).next_page_token = a.next_page_token := by
  unfold App.navigateDown
  split <;> (try split) <;> simp

theorem navDown_iter_preserves (n : Nat) (a : App) :
    (Nat.iterate App.navigateDown n a).view = a.view ∧
    (Nat.iterate App.navigateDown n a).workflows = a.workflows ∧
    (Nat.iterate App.navigateDown n a).loading_more = a.loading_more ∧
    (Nat.iterate App.navigateDown n a).next_page_token = a.next_page_token := by
  induction n generalizing a with
  | zero => simp
  | succ n ih =>
    rw [Function.iterate_succ_apply]
    obtain ⟨h1, h2, h3, h4⟩ := ih (App.navigateDown a)
    obtain ⟨g1, g2, g3, g4⟩ := navDown_preserves a
    exact ⟨h1.trans g1, h2.trans g2, h3.trans g3, h4.trans g4⟩

theorem navDown_cursor (ws : List WorkflowSummary) (hne : ws ≠ [])
    (a : App) (hview : a.view = .Collection .WorkflowExecution)
    (hws : a.workflows = .Loaded ws) (i : Nat)
    (hcur : a.workflow_table_state.selected = some i)
    (hle : i ≤ USIZE_MAX) :
    (App.navigateDown a).workflow_table_state.selected =
      some (min (i + 1) USIZE_MAX) := by
  unfold App.navigateDown
  rw [hview]
  simp [hws, LoadState.dataOf, List.length_eq_zero, hne,
    TableState.selectNext, TableState.selectIdx, hcur]

theorem navDown_iter_cursor (ws : List WorkflowSummary) (hne : ws ≠ [])
    (n : Nat) :
    ∀ a : App, a.view = .Collection .WorkflowExecution →
      a.workflows = .Loaded ws →
      ∀ i, a.workflow_table_state.selected = some i → i ≤ USIZE_MAX →
      (Nat.iterate App.navigateDown n a).workflow_table_state.selected =
        some (min (i + n) USIZE_MAX) := by
  induction n with
  | zero =>
    intro a _ _ i hcur hle
    simpa [Nat.min_eq_left hle] using hcur
  | succ n ih =>
    intro a hview hws i hcur hle
    rw [Function.iterate_succ_apply]
    obtain ⟨p1, p2, -, -⟩ := navDown_preserves a
    have hc1 := navDown_cursor ws hne a hview hws i hcur hle
    have := ih (App.navigateDown a) (p1.trans hview) (p2.trans hws)
      (min (i + 1) USIZE_MAX) hc1 (min_le_right _ _)
    rw [this]
    congr 1
    omega

theorem maybeLoadMore_no (a : App) (ws : List WorkflowSummary)
    (hview : a.view = .Collection .WorkflowExecution)
    (hws : a.workflows = .Loaded ws) :
    (a.loading_more = true → a.maybeLoadMore = (a, [])) ∧
    (a.next_page_token = [] → a.maybeLoadMore = (a, [])) ∧
    (∀ j, a.workflow_table_state.selected = some j → j + 5 < ws.length →
      a.maybeLoadMore = (a, [])) ∧
    (a.loading_more = false → a.next_page_token ≠ [] →
      ∀ j, a.workflow_table_state.selected = some j → ws.length ≤ j + 5 →
      a.maybeLoadMore = ({ a with loading_more := true }, [.LoadMoreWorkflows])) := by
  refine ⟨fun hlm => ?_, fun htok => ?_, fun j hcur hfar => ?_,
    fun hlm htok j hcur hnear => ?_⟩ <;>
    simp [App.maybeLoadMore, hview, hws, LoadState.dataOf, *] <;>
    omega

theorem clearStaleToast_fields (now : Nat) (app : App) :
    (clearStaleToast now app).view = app.view ∧
    (clearStaleToast now app).workflows = app.workflows ∧
    (clearStaleToast now app).loading_more = app.loading_more ∧
    (clearStaleToast now app).next_page_token = app.next_page_token ∧
    (clearStaleToast now app).workflow_table_state =
      app.workflow_table_state ∧
    (clearStaleToast now app).isDetailView = app.isDetailView := by
  rcases clearStaleToast_eq now app with hc | hc <;> rw [hc] <;>
    exact ⟨rfl, rfl, rfl, rfl, rfl, rfl⟩

theorem update_navDown_eq (now : Nat) (app : App)
    (h : (clearStaleToast now app).isDetailView = false) :
    update now app .NavigateDown =
      (App.navigateDown (clearStaleToast now app)).maybeLoadMore := by
  simp only [update, h, Bool.false_eq_true, if_false]

theorem update_pageDown_eq (now : Nat) (app : App)
    (h : (clearStaleToast now app).isDetailView = false) :
    update now app .PageDown =
      (Nat.iterate App.navigateDown 20 (clearStaleToast now app)).maybeLoadMore := by
  simp only [update, h, Bool.false_eq_true, if_false, App.pageHeight]

/-- Claim C6: in the executions collection view with a loaded, nonempty
collection and a selected row, a downward move emits exactly one
LoadMoreWorkflows Effect and sets loading_more iff loading_more was
clear, the continuation token is nonempty, and the post-move index is
within 5 rows of the end; a page-down (20 down moves) likewise emits
exactly one LoadMoreWorkflows Effect and sets loading_more iff the same
three-part condition holds evaluated on the post-page index, and
otherwise emits nothing and leaves loading_more unchanged; while
loading_more is set neither a down move nor a page-down emits anything;
and MoreWorkflowsLoaded appends to the loaded sequence, stores the new
token and clears loading_more. -/
theorem c6_pagination (now : Nat) (app : App) (ws : List WorkflowSummary)
    (hview : app.view = .Collection .WorkflowExecution)
    (hws : app.workflows = .Loaded ws)
    (hne : ws ≠ [])
    (i : Nat)
    (hcur : app.workflow_table_state.selected = some i)
    (hlt : i + 1 ≤ USIZE_MAX) :
    ((app.loading_more = false ∧ app.next_page_token ≠ [] ∧
        ws.length ≤ (i + 1) + 5) →
      (update now app .NavigateDown).2 = [.LoadMoreWorkflows] ∧
      (update now app .NavigateDown).1.loading_more = true ∧
      (update now app .NavigateDown).1.workflow_table_state.selected =
        some (i + 1)) ∧
    (¬ (app.loading_more = false ∧ app.next_page_token ≠ [] ∧
        ws.length ≤ (i + 1) + 5) →
      (update now app .NavigateDown).2 = [] ∧
      (update now app .NavigateDown).1.loading_more = app.loading_more) ∧
    (app.loading_more = true →
      (update now app .NavigateDown).2 = [] ∧
      (update now app .PageDown).2 = []) ∧
    (∀ ws2 tok,
      (update now app (.MoreWorkflowsLoaded ws2 tok)).1.workflows =
        .Loaded (ws ++ ws2) ∧
      (update now app (.MoreWorkflowsLoaded ws2 tok)).1.loading_more = false ∧
      (update now app (.MoreWorkflowsLoaded ws2 tok)).1.next_page_token =
        tok) ∧
    (i + 20 ≤ USIZE_MAX →
      (app.loading_more = false ∧ app.next_page_token ≠ [] ∧
        ws.length ≤ (i + 20) + 5) →
      (update now app .PageDown).2 = [.LoadMoreWorkflows] ∧
      (update now app .PageDown).1.loading_more = true ∧
      (update now app .PageDown).1.workflow_table_state.selected =
        some (i + 20)) ∧
    (i + 20 ≤ USIZE_MAX →
      ¬ (app.loading_more = false ∧ app.next_page_token ≠ [] ∧
        ws.length ≤ (i + 20) + 5) →
      (update now app .PageDown).2 = [] ∧
      (update now app .PageDown).1.loading_more = app.loading_more) := by
  obtain ⟨tview, tws, tlm, ttok, tcur, tdet⟩ := clearStaleToast_fields now app
  have hdet : (clearStaleToast now app).isDetailView = false := by
    rw [tdet, App.isDetailView, hview]
  have hnd := update_navDown_eq now app hdet
  have hpd := update_pageDown_eq now app hdet
  have hTview : (clearStaleToast now app).view = .Collection .WorkflowExecution :=
    tview.trans hview
  have hTws : (clearStaleToast now app).workflows = .Loaded ws := tws.trans hws
  have hTcur : (clearStaleToast now app).workflow_table_state.selected =
      some i := by rw [tcur, hcur]
  obtain ⟨nview, nws, nlm, ntok⟩ := navDown_preserves (clearStaleToast now app)
  have hNview : (App.navigateDown (clearStaleToast now app)).view =
      .Collection .WorkflowExecution := nview.trans hTview
  have hNws : (App.navigateDown (clearStaleToast now app)).workflows =
      .Loaded ws := nws.trans hTws
  have hNlm : (App.navigateDown (clearStaleToast now app)).loading_more =
      app.loading_more := nlm.trans tlm
  have hNtok : (App.navigateDown (clearStaleToast now app)).next_page_token =
      app.next_page_token := ntok.trans ttok
  have hNcur : (App.navigateDown (clearStaleToast now app)).workflow_table_state.selected =
      some (i + 1) := by
    rw [navDown_cursor ws hne _ hTview hTws i hTcur (by omega)]
    rw [Nat.min_eq_left hlt]
  obtain ⟨m1, m2, m3, m4⟩ :=
    maybeLoadMore_no (App.navigateDown (clearStaleToast now app)) ws hNview hNws
  refine ⟨fun ⟨hlm, htok, hnear⟩ => ?_, fun hncond => ?_, fun hlm => ?_,
    fun ws2 tok => ?_, fun h20 ⟨hlm, htok, hnear⟩ => ?_, fun h20 hncond => ?_⟩
  · have := m4 (hNlm.trans hlm) (by rw [hNtok]; exact htok) (i + 1) hNcur hnear
    rw [hnd, this]
    exact ⟨rfl, rfl, hNcur⟩
  · by_cases hlm : app.loading_more = true
    · have := m1 (hNlm.trans hlm)
      rw [hnd, this]
      exact ⟨rfl, hNlm⟩
    · have hlm' : app.loading_more = false := by
        revert hlm; cases app.loading_more <;> simp
      by_cases htok : app.next_page_token = []
      · have := m2 (hNtok.trans htok)
        rw [hnd, this]
        exact ⟨rfl, hNlm⟩
      · have hfar : (i + 1) + 5 < ws.length := by
          have : ¬ ws.length ≤ (i + 1) + 5 := fun hnear =>
            hncond ⟨hlm', htok, hnear⟩
          omega
        have := m3 (i + 1) hNcur hfar
        rw [hnd, this]
        exact ⟨rfl, hNlm⟩
  · constructor
    · have := m1 (hNlm.trans hlm)
      rw [hnd, this]
    · obtain ⟨pview, pws, plm, -⟩ :=
        navDown_iter_preserves 20 (clearStaleToast now app)
      obtain ⟨q1, -, -, -⟩ :=
        maybeLoadMore_no (Nat.iterate App.navigateDown 20 (clearStaleToast now app))
          ws (pview.trans hTview) (pws.trans hTws)
      have := q1 ((plm.trans tlm).trans hlm)
      rw [hpd, this]
  · rcases clearStaleToast_eq now app with hc | hc <;>
      simp [update, hc, hws, App.resetBackoff]
  · obtain ⟨pview, pws, plm, ptok⟩ :=
      navDown_iter_preserves 20 (clearStaleToast now app)
    have hPview := pview.trans hTview
    have hPws := pws.trans hTws
    have hPlm := plm.trans tlm
    have hPtok := ptok.trans ttok
    have hPcur : (Nat.iterate App.navigateDown 20
        (clearStaleToast now app)).workflow_table_state.selected =
        some (i + 20) := by
      rw [navDown_iter_cursor ws hne 20 (clearStaleToast now app) hTview hTws
        i hTcur (by omega)]
      rw [Nat.min_eq_left h20]
    obtain ⟨-, -, -, p4⟩ :=
      maybeLoadMore_no
        (Nat.iterate App.navigateDown 20 (clearStaleToast now app)) ws
        hPview hPws
    have := p4 (hPlm.trans hlm) (by rw [hPtok]; exact htok) (i + 20) hPcur
      hnear
    rw [hpd, this]
    exact ⟨rfl, rfl, hPcur⟩
  · obtain ⟨pview, pws, plm, ptok⟩ :=
      navDown_iter_preserves 20 (clearStaleToast now app)
    have hPview := pview.trans hTview
    have hPws := pws.trans hTws
    have hPlm := plm.trans tlm
    have hPtok := ptok.trans ttok
    have hPcur : (Nat.iterate App.navigateDown 20
        (clearStaleToast now app)).workflow_table_state.selected =
        some (i + 20) := by
      rw [navDown_iter_cursor ws hne 20 (clearStaleToast now app) hTview hTws
        i hTcur (by omega)]
      rw [Nat.min_eq_left h20]
    obtain ⟨p1, p2, p3, -⟩ :=
      maybeLoadMore_no
        (Nat.iterate App.navigateDown 20 (clearStaleToast now app)) ws
        hPview hPws
    by_cases hlm : app.loading_more = true
    · have := p1 (hPlm.trans hlm)
      rw [hpd, this]
      exact ⟨rfl, hPlm⟩
    · have hlm2 : app.loading_more = false := by
        revert hlm; cases app.loading_more <;> simp
      by_cases htok : app.next_page_token = []
      · have := p2 (hPtok.trans htok)
        rw [hpd, this]
        exact ⟨rfl, hPlm⟩
      · have hfar : (i + 20) + 5 < ws.length := by
          have : ¬ ws.length ≤ (i + 20) + 5 := fun hnear =>
            hncond ⟨hlm2, htok, hnear⟩
          omega
        have := p3 (i + 20) hPcur hfar
        rw [hpd, this]
        exact ⟨rfl, hPlm⟩

/-- Witness for C6 (the spec section 8 scenario): 20 loaded executions,
cursor at index 14, nonempty token, loading_more clear; a down move emits
one LoadMoreWorkflows, sets loading_more and lands on index 15, and a
page-down from the same state also emits one LoadMoreWorkflows. -/
theorem c6_pagination_witness :
    (update 0
      { App.new "ns".data with
          workflows :=
            .Loaded (List.replicate 20
              ⟨"w".data, "r".data, "T".data, .Running, 0, none, "q".data⟩)
          workflow_table_state := ⟨0, some 14⟩
          next_page_token := [9] }
      .NavigateDown).2 = [.LoadMoreWorkflows] ∧
    (update 0
      { App.new "ns".data with
          workflows :=
            .Loaded (List.replicate 20
              ⟨"w".data, "r".data, "T".data, .Running, 0, none, "q".data⟩)
          workflow_table_state := ⟨0, some 14⟩
          next_page_token := [9] }
      .NavigateDown).1.loading_more = true ∧
    (update 0
      { App.new "ns".data with
          workflows :=
            .Loaded (List.replicate 20
              ⟨"w".data, "r".data, "T".data, .Running, 0, none, "q".data⟩)
          workflow_table_state := ⟨0, some 14⟩
          next_page_token := [9] }
      .NavigateDown).1.workflow_table_state.selected = some 15 ∧
    (update 0
      { App.new "ns".data with
          workflows :=
            .Loaded (List.replicate 20
              ⟨"w".data, "r".data, "T".data, .Running, 0, none, "q".data⟩)
          workflow_table_state := ⟨0, some 14⟩
          next_page_token := [9] }
      .PageDown).2 = [.LoadMoreWorkflows] := by
  have h := c6_pagination 0
    { App.new "ns".data with
        workflows :=
          .Loaded (List.replicate 20
            ⟨"w".data, "r".data, "T".data, .Running, 0, none, "q".data⟩)
        workflow_table_state := ⟨0, some 14⟩
        next_page_token := [9] }
    (List.replicate 20
      ⟨"w".data, "r".data, "T".data, .Running, 0, none, "q".data⟩)
    rfl rfl (by simp) 14 rfl (by norm_num [USIZE_MAX])
  have h1 := h.1 ⟨rfl, by simp, by simp⟩
  exact ⟨h1.1, h1.2.1, h1.2.2,
    (h.2.2.2.2.1 (by norm_num [USIZE_MAX]) ⟨rfl, by simp, by simp⟩).1⟩

/-! ## Claim C8: row cursor validity -/

/-- Claim C8, counterexample: reloading the executions collection with a
shorter list leaves the old cursor in place, dangling past the end of the
newly loaded collection (index 14 into 3 rows). -/
theorem c8_cursor_validity_counterexample :
    (update 0
      { App.new "ns".data with
          workflows :=
            .Loaded (List.replicate 20
              ⟨"w".data, "r".data, "T".data, .Running, 0, none, "q".data⟩)
          workflow_table_state := ⟨0, some 14⟩ }
      (.WorkflowsLoaded (List.replicate 3
        (⟨"w".data, "r".data, "T".data, .Running, 0, none, "q".data⟩ :
          WorkflowSummary))
        [])).1.workflow_table_state.selected = some 14 ∧
    (update 0
      { App.new "ns".data with
          workflows :=
            .Loaded (List.replicate 20
              ⟨"w".data, "r".data, "T".data, .Running, 0, none, "q".data⟩)
          workflow_table_state := ⟨0, some 14⟩ }
      (.WorkflowsLoaded (List.replicate 3
        (⟨"w".data, "r".data, "T".data, .Running, 0, none, "q".data⟩ :
          WorkflowSummary))
        [])).1.workflows.dataOf = some (List.replicate 3
          (⟨"w".data, "r".data, "T".data, .Running, 0, none, "q".data⟩ :
            WorkflowSummary)) ∧
    ¬ (14 < (List.replicate 3
        (⟨"w".data, "r".data, "T".data, .Running, 0, none, "q".data⟩ :
          WorkflowSummary)).length) := by
  refine ⟨by decide, by decide, by decide⟩

theorem update_navUp_eq (now : Nat) (app : App)
    (h : (clearStaleToast now app).isDetailView = false) :
    update now app .NavigateUp =
      (App.navigateUp (clearStaleToast now app), []) := by
  simp only [update, h, Bool.false_eq_true, if_false]

theorem navUp_cursor (a : App)
    (hview : a.view = .Collection .WorkflowExecution) (k : Nat)
    (hcur : a.workflow_table_state.selected = some k) :
    (App.navigateUp a).workflow_table_state.selected = some (k - 1) := by
  unfold App.navigateUp
  rw [hview]
  simp [TableState.selectPrevious, TableState.selectIdx, hcur]

theorem maybeLoadMore_table (a : App) :
    (a.maybeLoadMore).1.workflow_table_state = a.workflow_table_state := by
  unfold App.maybeLoadMore
  split
  · rfl
  · split <;> (try split) <;> rfl

theorem maybeLoadMore_sched_table (a : App) :
    (a.maybeLoadMore).1.schedule_table_state = a.schedule_table_state := by
  unfold App.maybeLoadMore
  split
  · rfl
  · split <;> (try split) <;> rfl

theorem clearStaleToast_sched_fields (now : Nat) (app : App) :
    (clearStaleToast now app).schedules = app.schedules ∧
    (clearStaleToast now app).schedule_table_state =
      app.schedule_table_state := by
  rcases clearStaleToast_eq now app with hc | hc <;> rw [hc] <;>
    exact ⟨rfl, rfl⟩

theorem navUp_cursor_sched (a : App)
    (hview : a.view = .Collection .Schedule) (k : Nat)
    (hcur : a.schedule_table_state.selected = some k) :
    (App.navigateUp a).schedule_table_state.selected = some (k - 1) := by
  unfold App.navigateUp
  rw [hview]
  simp [TableState.selectPrevious, TableState.selectIdx, hcur]

theorem navDown_cursor_sched (ss : List Schedule) (hne : ss ≠ [])
    (a : App) (hview : a.view = .Collection .Schedule)
    (hss : a.schedules = .Loaded ss) (i : Nat)
    (hcur : a.schedule_table_state.selected = some i) :
    (App.navigateDown a).schedule_table_state.selected =
      some (min (i + 1) USIZE_MAX) := by
  unfold App.navigateDown
  rw [hview]
  simp [hss, LoadState.dataOf, List.length_eq_zero, hne,
    TableState.selectNext, TableState.selectIdx, hcur]

/-- Claim C8 (amended): the reducer does not re-derive row cursors, so a
cursor may point past the end of its collection after a shrinking reload
(the old index is kept verbatim, for the executions collection under
WorkflowsLoaded and for the schedules collection under SchedulesLoaded);
within either collection view, a single up move saturates at the first
row (no wraparound), a single down move on a nonempty collection advances
by exactly one (with no clamping to the collection length), and every
reducer read of the cursor is bounds-checked: a Select with an
out-of-range cursor changes no view and emits nothing, in both kinds.
Render-time clamping, outside the reducer, restores visible validity. -/
theorem c8_cursor_clamping (now : Nat) (app : App) :
    (∀ ws : List WorkflowSummary,
      app.view = .Collection .WorkflowExecution →
      app.workflows = .Loaded ws →
      (app.workflow_table_state.selected = some 0 →
        (update now app .NavigateUp).1.workflow_table_state.selected =
          some 0) ∧
      (∀ i, app.workflow_table_state.selected = some (i + 1) →
        (update now app .NavigateUp).1.workflow_table_state.selected =
          some i) ∧
      (∀ i, app.workflow_table_state.selected = some i →
        i + 1 ≤ USIZE_MAX → ws ≠ [] →
        (update now app .NavigateDown).1.workflow_table_state.selected =
          some (i + 1)) ∧
      (∀ i, app.workflow_table_state.selected = some i → ws.length ≤ i →
        (update now app .Select).1.view = app.view ∧
        (update now app .Select).2 = [])) ∧
    (∀ ws2 tok i, app.workflow_table_state.selected = some i →
      (update now app
        (.WorkflowsLoaded ws2 tok)).1.workflow_table_state.selected =
        some i) ∧
    (∀ ss : List Schedule,
      app.view = .Collection .Schedule →
      app.schedules = .Loaded ss →
      (app.schedule_table_state.selected = some 0 →
        (update now app .NavigateUp).1.schedule_table_state.selected =
          some 0) ∧
      (∀ i, app.schedule_table_state.selected = some (i + 1) →
        (update now app .NavigateUp).1.schedule_table_state.selected =
          some i) ∧
      (∀ i, app.schedule_table_state.selected = some i →
        i + 1 ≤ USIZE_MAX → ss ≠ [] →
        (update now app .NavigateDown).1.schedule_table_state.selected =
          some (i + 1)) ∧
      (∀ i, app.schedule_table_state.selected = some i → ss.length ≤ i →
        (update now app .Select).1.view = app.view ∧
        (update now app .Select).2 = [])) ∧
    (∀ ss2 i, app.schedule_table_state.selected = some i →
      (update now app
        (.SchedulesLoaded ss2)).1.schedule_table_state.selected =
        some i) := by
  obtain ⟨tview, tws, tlm, ttok, tcur, tdet⟩ := clearStaleToast_fields now app
  obtain ⟨tss, tscur⟩ := clearStaleToast_sched_fields now app
  refine ⟨fun ws hview hws => ?_, fun ws2 tok i hci => ?_,
    fun ss hview hss => ?_, fun ss2 i hci => ?_⟩
  · have hdet : (clearStaleToast now app).isDetailView = false := by
      rw [tdet, App.isDetailView, hview]
    have hTview : (clearStaleToast now app).view =
        .Collection .WorkflowExecution := tview.trans hview
    have hTws : (clearStaleToast now app).workflows = .Loaded ws :=
      tws.trans hws
    refine ⟨fun hc0 => ?_, fun i hci => ?_, fun i hci hle hne => ?_,
      fun i hci hout => ?_⟩
    · rw [update_navUp_eq now app hdet]
      rw [navUp_cursor _ hTview 0 (by rw [tcur, hc0])]
    · rw [update_navUp_eq now app hdet]
      rw [navUp_cursor _ hTview (i + 1) (by rw [tcur, hci])]
      simp
    · rw [update_navDown_eq now app hdet, maybeLoadMore_table]
      rw [navDown_cursor ws hne _ hTview hTws i (by rw [tcur, hci]) (by omega)]
      rw [Nat.min_eq_left hle]
    · have hrow : ws.get? i = none := by
        rw [List.get?_eq_getElem?]
        exact List.getElem?_eq_none hout
      have : update now app .Select =
          App.handleSelect (clearStaleToast now app) := by
        simp only [update]
      rw [this]
      unfold App.handleSelect
      rw [hTview]
      simp only [hTws, LoadState.dataOf, tcur, hci, hrow,
        List.get?_eq_getElem?] at *
      simp [hTws, LoadState.dataOf, tcur, hci,
        List.getElem?_eq_none hout, tview]
  · rcases clearStaleToast_eq now app with hc | hc <;>
      simp [update, hc, hci, App.resetBackoff]
  · have hdet : (clearStaleToast now app).isDetailView = false := by
      rw [tdet, App.isDetailView, hview]
    have hTview : (clearStaleToast now app).view = .Collection .Schedule :=
      tview.trans hview
    have hTss : (clearStaleToast now app).schedules = .Loaded ss :=
      tss.trans hss
    refine ⟨fun hc0 => ?_, fun i hci => ?_, fun i hci hle hne => ?_,
      fun i hci hout => ?_⟩
    · rw [update_navUp_eq now app hdet]
      rw [navUp_cursor_sched _ hTview 0 (by rw [tscur, hc0])]
    · rw [update_navUp_eq now app hdet]
      rw [navUp_cursor_sched _ hTview (i + 1) (by rw [tscur, hci])]
      simp
    · rw [update_navDown_eq now app hdet, maybeLoadMore_sched_table]
      rw [navDown_cursor_sched ss hne _ hTview hTss i (by rw [tscur, hci])]
      rw [Nat.min_eq_left hle]
    · have hrow : ss.get? i = none := by
        rw [List.get?_eq_getElem?]
        exact List.getElem?_eq_none hout
      have : update now app .Select =
          App.handleSelect (clearStaleToast now app) := by
        simp only [update]
      rw [this]
      unfold App.handleSelect
      rw [hTview]
      simp only [hTss, LoadState.dataOf, tscur, hci, hrow,
        List.get?_eq_getElem?] at *
      simp [hTss, LoadState.dataOf, tscur, hci,
        List.getElem?_eq_none hout, tview]
  · rcases clearStaleToast_eq now app with hc | hc <;>
      simp [update, hc, hci]

/-- Witness for C8: with 3 loaded execution rows and a dangling cursor
at 14, Select is a no-op with no Effects and a reload keeps the cursor
at 14; with 1 loaded schedule row and a dangling schedule cursor at 5,
Select is likewise a no-op with no Effects and a schedules reload keeps
the cursor at 5. -/
theorem c8_cursor_clamping_witness :
    ((update 0
        { App.new "ns".data with
            workflows :=
              .Loaded (List.replicate 3
                (⟨"w".data, "r".data, "T".data, .Running, 0, none,
                  "q".data⟩ : WorkflowSummary))
            workflow_table_state := ⟨0, some 14⟩ }
        .Select).1.view =
      ({ App.new "ns".data with
          workflows :=
            .Loaded (List.replicate 3
              (⟨"w".data, "r".data, "T".data, .Running, 0, none,
                "q".data⟩ : WorkflowSummary))
          workflow_table_state := ⟨0, some 14⟩ } : App).view ∧
     (update 0
        { App.new "ns".data with
            workflows :=
              .Loaded (List.replicate 3
                (⟨"w".data, "r".data, "T".data, .Running, 0, none,
                  "q".data⟩ : WorkflowSummary))
            workflow_table_state := ⟨0, some 14⟩ }
        .Select).2 = []) ∧
    (update 0
      { App.new "ns".data with
          workflows :=
            .Loaded (List.replicate 3
              (⟨"w".data, "r".data, "T".data, .Running, 0, none,
                "q".data⟩ : WorkflowSummary))
          workflow_table_state := ⟨0, some 14⟩ }
      (.WorkflowsLoaded [] [])).1.workflow_table_state.selected =
      some 14 ∧
    ((update 0
        { App.new "ns".data with
            view := .Collection .Schedule
            schedules :=
              .Loaded [(⟨"s1".data, "wt".data, .Active, "spec".data, none,
                0, "n".data⟩ : Schedule)]
            schedule_table_state := ⟨0, some 5⟩ }
        .Select).1.view =
      ({ App.new "ns".data with
          view := .Collection .Schedule
          schedules :=
            .Loaded [(⟨"s1".data, "wt".data, .Active, "spec".data, none,
              0, "n".data⟩ : Schedule)]
          schedule_table_state := ⟨0, some 5⟩ } : App).view ∧
     (update 0
        { App.new "ns".data with
            view := .Collection .Schedule
            schedules :=
              .Loaded [(⟨"s1".data, "wt".data, .Active, "spec".data, none,
                0, "n".data⟩ : Schedule)]
            schedule_table_state := ⟨0, some 5⟩ }
        .Select).2 = []) ∧
    (update 0
      { App.new "ns".data with
          view := .Collection .Schedule
          schedules :=
            .Loaded [(⟨"s1".data, "wt".data, .Active, "spec".data, none,
              0, "n".data⟩ : Schedule)]
          schedule_table_state := ⟨0, some 5⟩ }
      (.SchedulesLoaded [])).1.schedule_table_state.selected = some 5 := by
  have hW := c8_cursor_clamping 0
    { App.new "ns".data with
        workflows :=
          .Loaded (List.replicate 3
            (⟨"w".data, "r".data, "T".data, .Running, 0, none,
              "q".data⟩ : WorkflowSummary))
        workflow_table_state := ⟨0, some 14⟩ }
  have hS := c8_cursor_clamping 0
    { App.new "ns".data with
        view := .Collection .Schedule
        schedules :=
          .Loaded [(⟨"s1".data, "wt".data, .Active, "spec".data, none,
            0, "n".data⟩ : Schedule)]
        schedule_table_state := ⟨0, some 5⟩ }
  exact ⟨(hW.1 _ rfl rfl).2.2.2 14 rfl (by simp),
    hW.2.1 [] [] 14 rfl,
    (hS.2.2.1 _ rfl rfl).2.2.2 5 rfl (by simp),
    hS.2.2.2 [] 5 rfl⟩

/-! ## Claim C1: deep-link round trip

Infrastructure: hygiene facts about the percent codec output and the
Rust split primitives. -/

/-- Strings whose scalars are all ASCII; for these, the byte-per-char
percent decoding inverts the byte-level encoding. -/
def asciiStr (s : Str) : Prop := ∀ c ∈ s, c.toNat < 128

def asciiOpt : Option Str → Prop
  | none => True
  | some s => asciiStr s

theorem char_toNat_lt (c : Char) : c.toNat < 1114112 := by
  have h := c.valid
  simp only [UInt32.isValidChar, Nat.isValidChar] at h
  simp only [Char.toNat]
  rcases h with h | h
  · omega
  · omega

theorem char_toNat_ofNat (n : Nat) (h : n < 55296) :
    (Char.ofNat n).toNat = n := by
  unfold Char.ofNat
  rw [dif_pos (Or.inl h)]
  rfl

theorem utf8Bytes_lt (c : Char) : ∀ b ∈ utf8Bytes c, b < 256 := by
  intro b hb
  have hc := char_toNat_lt c
  simp only [utf8Bytes] at hb
  split at hb <;> (try split at hb) <;> (try split at hb) <;>
    simp at hb <;> omega

theorem utf8Bytes_ne_nil (c : Char) : utf8Bytes c ≠ [] := by
  simp only [utf8Bytes]
  split <;> (try split) <;> (try split) <;> simp

theorem hexDigitU_allowed : ∀ n, n < 16 →
    allowedByte (hexDigitU n).toNat = true := by
  decide

theorem allowedByte_lt (b : Nat) (h : allowedByte b = true) : b < 128 := by
  simp only [allowedByte, Bool.or_eq_true, Bool.and_eq_true,
    decide_eq_true_eq] at h
  omega

theorem encodeByte_ne_nil (b : Nat) : encodeByte b ≠ [] := by
  unfold encodeByte
  split <;> simp

theorem encodeByte_chars (b : Nat) (hb : b < 256) :
    ∀ c ∈ encodeByte b, allowedByte c.toNat = true ∨ c = '%' := by
  intro c hc
  unfold encodeByte at hc
  split at hc
  · rename_i hall
    have hb2 : b < 128 := allowedByte_lt b hall
    simp at hc
    subst hc
    left
    rw [char_toNat_ofNat b (by omega)]
    exact hall
  · simp at hc
    rcases hc with rfl | rfl | rfl
    · right; rfl
    · left
      exact hexDigitU_allowed (b / 16) (by omega)
    · left
      exact hexDigitU_allowed (b % 16) (by omega)

theorem strBytes_lt (s : Str) : ∀ b ∈ strBytes s, b < 256 := by
  intro b hb
  simp only [strBytes, List.mem_flatten, List.mem_map] at hb
  obtain ⟨l, ⟨c, -, rfl⟩, hbl⟩ := hb
  exact utf8Bytes_lt c b hbl

theorem percentEncode_chars (s : Str) :
    ∀ c ∈ percentEncode s, allowedByte c.toNat = true ∨ c = '%' := by
  intro c hc
  simp only [percentEncode, List.mem_flatten, List.mem_map] at hc
  obtain ⟨l, ⟨b, hb, rfl⟩, hcl⟩ := hc
  exact encodeByte_chars b (strBytes_lt s b hb) c hcl

theorem percentEncode_not_mem (s : Str) (c0 : Char)
    (h1 : allowedByte c0.toNat = false) (h2 : c0 ≠ '%') :
    c0 ∉ percentEncode s := by
  intro hmem
  rcases percentEncode_chars s c0 hmem with h | h
  · rw [h1] at h
    cases h
  · exact h2 h

theorem percentEncode_ne_nil (s : Str) (h : s ≠ []) :
    percentEncode s ≠ [] := by
  cases s with
  | nil => exact absurd rfl h
  | cons c t =>
    simp only [percentEncode, strBytes, List.map_cons, List.flatten_cons]
    cases hu : utf8Bytes c with
    | nil => exact absurd hu (utf8Bytes_ne_nil c)
    | cons b bs =>
      simp only [List.map_cons, List.map_append, List.flatten_cons]
      cases he : encodeByte b with
      | nil => exact absurd he (encodeByte_ne_nil b)
      | cons x xs => simp

theorem splitOnceChar_none (c : Char) (s : Str) (h : c ∉ s) :
    splitOnceChar c s = none := by
  induction s with
  | nil => rfl
  | cons x t ih =>
    have hx : ¬ x = c := fun he => h (he ▸ List.mem_cons_self x t)
    simp only [splitOnceChar, if_neg hx]
    rw [ih (fun hm => h (List.mem_cons_of_mem x hm))]
    rfl

theorem splitOnceChar_app (c : Char) (a b : Str) (h : c ∉ a) :
    splitOnceChar c (a ++ c :: b) = some (a, b) := by
  induction a with
  | nil => simp [splitOnceChar]
  | cons x t ih =>
    have hx : ¬ x = c := fun he => h (he ▸ List.mem_cons_self x t)
    simp only [List.cons_append, splitOnceChar, if_neg hx, List.append_eq]
    rw [ih (fun hm => h (List.mem_cons_of_mem x hm))]
    rfl

theorem rustSplit_nosep (c : Char) (a : Str) (h : c ∉ a) :
    rustSplit c a = [a] := by
  induction a with
  | nil => rfl
  | cons x t ih =>
    have hx : ¬ x = c := fun he => h (he ▸ List.mem_cons_self x t)
    simp only [rustSplit, if_neg hx]
    rw [ih (fun hm => h (List.mem_cons_of_mem x hm))]

theorem rustSplit_ne_nil (c : Char) (s : Str) : rustSplit c s ≠ [] := by
  induction s with
  | nil => simp [rustSplit]
  | cons x t ih =>
    simp only [rustSplit]
    split
    · simp
    · cases h : rustSplit c t with
      | nil => exact absurd h ih
      | cons p ps => simp

theorem rustSplit_app (c : Char) (a b : Str) (h : c ∉ a) :
    rustSplit c (a ++ c :: b) = a :: rustSplit c b := by
  induction a with
  | nil => simp [rustSplit]
  | cons x t ih =>
    have hx : ¬ x = c := fun he => h (he ▸ List.mem_cons_self x t)
    simp only [List.cons_append, rustSplit, if_neg hx, List.append_eq]
    rw [ih (fun hm => h (List.mem_cons_of_mem x hm))]

theorem leadsWith_colon_false (x : Char) (xs : Str) (hx : x ≠ ':') :
    leadsWith [':', '/', '/'] (x :: xs) = false := by
  have hx2 : ¬ ((':' : Char) = x) := fun he => hx he.symm
  simp [leadsWith, hx2]

theorem splitOnceStr_colon (l r : Str) (h : (':' : Char) ∉ l) :
    splitOnceStr [':', '/', '/'] (l ++ ':' :: '/' :: '/' :: r) =
      some (l, r) := by
  induction l with
  | nil => simp [splitOnceStr, leadsWith]
  | cons x t ih =>
    have hx : x ≠ ':' := fun he => h (by rw [← he]; exact List.mem_cons_self x t)
    simp only [List.cons_append, splitOnceStr, List.append_eq,
      leadsWith_colon_false x _ hx, Bool.false_eq_true, if_false]
    rw [ih (fun hm => h (List.mem_cons_of_mem x hm))]
    rfl

theorem toDigit16_hexDigitU : ∀ n, n < 16 →
    toDigit16 (hexDigitU n) = some n := by
  decide

theorem utf8Bytes_ascii (c : Char) (h : c.toNat < 128) :
    utf8Bytes c = [c.toNat] := by
  simp [utf8Bytes, h]

theorem pd_cons (p : Bool) (c : Char) (rest : Str) (hc : c ≠ '%')
    (hp : ¬ (p = true ∧ c = '+')) :
    percentDecodeInner p (c :: rest) = c :: percentDecodeInner p rest := by
  rw [percentDecodeInner.eq_def]
  split
  · rename_i heq
    simp at heq
  all_goals rename_i heq
  all_goals obtain ⟨h1, h2⟩ := List.cons.inj heq
  all_goals first
    | exact absurd h1 hc
    | (subst h1; subst h2; rw [if_neg (by simpa using hp)])

theorem pd_pct (p : Bool) (h l : Nat) (hh : h < 16) (hl : l < 16)
    (rest : Str) :
    percentDecodeInner p ('%' :: hexDigitU h :: hexDigitU l :: rest) =
      Char.ofNat (16 * h + l) :: percentDecodeInner p rest := by
  simp only [percentDecodeInner, toDigit16_hexDigitU h hh,
    toDigit16_hexDigitU l hl]

/-- On ASCII input, percent decoding inverts percent encoding, in both
path and query mode. -/
theorem decode_encode (p : Bool) (s : Str) (hs : asciiStr s) :
    percentDecodeInner p (percentEncode s) = s := by
  induction s with
  | nil => rfl
  | cons c t ih =>
    have hc : c.toNat < 128 := hs c (List.mem_cons_self c t)
    have ht : asciiStr t := fun x hx => hs x (List.mem_cons_of_mem c hx)
    have henc : percentEncode (c :: t) =
        encodeByte c.toNat ++ percentEncode t := by
      simp [percentEncode, strBytes, utf8Bytes_ascii c hc]
    rw [henc]
    unfold encodeByte
    split
    · rename_i hall
      rw [Char.ofNat_toNat]
      simp only [List.cons_append, List.nil_append]
      rw [pd_cons p c _
        (fun he => by
          rw [he] at hall
          exact absurd hall (by decide))
        (fun hpc => by
          rw [hpc.2] at hall
          exact absurd hall (by decide))]
      rw [ih ht]
    · simp only [List.cons_append, List.nil_append]
      rw [pd_pct p (c.toNat / 16) (c.toNat % 16) (by omega) (by omega)]
      rw [show 16 * (c.toNat / 16) + c.toNat % 16 = c.toNat from by omega]
      rw [Char.ofNat_toNat, ih ht]

theorem amp_not_mem_pair (k v : Str) :
    ('&' : Char) ∉ percentEncode k ++ '=' :: percentEncode v := by
  intro hm
  rcases List.mem_append.mp hm with h | h
  · exact percentEncode_not_mem k '&' (by decide) (by decide) h
  · rcases List.mem_cons.mp h with h | h
    · exact absurd h (by decide)
    · exact percentEncode_not_mem v '&' (by decide) (by decide) h

theorem pair_isEmpty_false (k v : Str) :
    (percentEncode k ++ '=' :: percentEncode v).isEmpty = false := by
  cases hek : percentEncode k <;> simp

/-- Parsing a query of one percent-encoded `k=v` pair recovers the pair. -/
theorem parseQuery_one (k v : Str) (hk : asciiStr k) (hv : asciiStr v) :
    parseQuery (some (percentEncode k ++ '=' :: percentEncode v)) =
      PMap.insert PMap.empty k v := by
  simp only [parseQuery]
  rw [rustSplit_nosep '&' _ (amp_not_mem_pair k v)]
  simp only [List.foldl_cons, List.foldl_nil, pair_isEmpty_false,
    Bool.false_eq_true, if_false,
    splitOnceChar_app '=' _ _
      (percentEncode_not_mem k '=' (by decide) (by decide))]
  unfold percentDecodeQuery
  rw [decode_encode true k hk, decode_encode true v hv]

/-- Parsing a query of two percent-encoded pairs recovers both, the
second inserted over the first. -/
theorem parseQuery_two (k1 v1 k2 v2 : Str) (hk1 : asciiStr k1)
    (hv1 : asciiStr v1) (hk2 : asciiStr k2) (hv2 : asciiStr v2) :
    parseQuery (some ((percentEncode k1 ++ '=' :: percentEncode v1) ++
        '&' :: (percentEncode k2 ++ '=' :: percentEncode v2))) =
      PMap.insert (PMap.insert PMap.empty k1 v1) k2 v2 := by
  simp only [parseQuery]
  rw [rustSplit_app '&' _ _ (amp_not_mem_pair k1 v1)]
  rw [rustSplit_nosep '&' _ (amp_not_mem_pair k2 v2)]
  simp only [List.foldl_cons, List.foldl_nil, pair_isEmpty_false,
    Bool.false_eq_true, if_false,
    splitOnceChar_app '=' _ _
      (percentEncode_not_mem k1 '=' (by decide) (by decide)),
    splitOnceChar_app '=' _ _
      (percentEncode_not_mem k2 '=' (by decide) (by decide))]
  unfold percentDecodeQuery
  rw [decode_encode true k1 hk1, decode_encode true v1 hv1,
    decode_encode true k2 hk2, decode_encode true v2 hv2]

theorem splitOnceStr_colon2 (l r : Str) (h : (':' : Char) ∉ l) :
    splitOnceStr "://".data (l ++ ':' :: '/' :: '/' :: r) = some (l, r) :=
  splitOnceStr_colon l r h

theorem rustSplit_segs (a : Str) (ha : ('/' : Char) ∉ a) (l : List Str)
    (hl : ∀ s ∈ l, ∀ c ∈ s, c ≠ '/') :
    rustSplit '/' (a ++ (l.map (fun s => '/' :: s)).flatten) = a :: l := by
  induction l generalizing a with
  | nil => simp [rustSplit_nosep '/' a ha]
  | cons s t ih =>
    simp only [List.map_cons, List.flatten_cons]
    rw [show a ++ (('/' :: s) ++ (t.map (fun s => '/' :: s)).flatten) =
        a ++ '/' :: (s ++ (t.map (fun s => '/' :: s)).flatten) from by simp]
    rw [rustSplit_app '/' a _ ha]
    rw [ih s (fun hmem => hl s (List.mem_cons_self s t) '/' hmem rfl)]
    exact fun x hx => hl x (List.mem_cons_of_mem s hx)

theorem rustSplit_cons_self (c : Char) (rest : Str) :
    rustSplit c (c :: rest) = [] :: rustSplit c rest := by
  simp [rustSplit]

theorem filter_nonempty (l : List Str) (h : ∀ s ∈ l, s ≠ []) :
    l.filter (fun s => !s.isEmpty) = l := by
  induction l with
  | nil => rfl
  | cons s t ih =>
    rw [List.filter_cons]
    have hs : s ≠ [] := h s (List.mem_cons_self s t)
    have : (!s.isEmpty) = true := by
      cases s with
      | nil => exact absurd rfl hs
      | cons c cs => rfl
    rw [if_pos this, ih (fun x hx => h x (List.mem_cons_of_mem s hx))]

theorem flatten_slash_mem (l : List Str) (c : Char)
    (hc : c ∈ (l.map (fun s => '/' :: s)).flatten) :
    c = '/' ∨ ∃ s ∈ l, c ∈ s := by
  simp only [List.mem_flatten, List.mem_map] at hc
  obtain ⟨piece, ⟨s, hs, rfl⟩, hcp⟩ := hc
  rcases List.mem_cons.mp hcp with h | h
  · exact Or.inl h
  · exact Or.inr ⟨s, hs, h⟩

/-- The full parse pipeline on a well-formed built URI: scheme and
authority validate, the path splits back into its raw segments, each
percent-decoded, and the query string (if any) is parsed into the
parameter map. -/
theorem parse_built (ns : Str) (routeRaw : List Str) (q : Option Str)
    (hns : asciiStr ns) (hns0 : ns ≠ [])
    (hroute : ∀ s ∈ routeRaw, s ≠ [] ∧ ∀ c ∈ s, c ≠ '/' ∧ c ≠ '?') :
    parseDeepLink ("temporal".data ++ ':' :: '/' :: '/' ::
        ("tui".data ++ '/' ::
          ("namespaces".data ++ '/' ::
            (percentEncode ns ++
              ((routeRaw.map (fun s => '/' :: s)).flatten ++
                (match q with | some s => '?' :: s | none => [])))))) =
      (match parseRoute (routeRaw.map percentDecodePath) (parseQuery q) with
       | .error e => .error e
       | .ok segs => .ok ⟨ns, segs⟩) := by
  have hnsSlash : ('/' : Char) ∉ percentEncode ns :=
    percentEncode_not_mem ns '/' (by decide) (by decide)
  have hnsQn : ('?' : Char) ∉ percentEncode ns :=
    percentEncode_not_mem ns '?' (by decide) (by decide)
  have hFRQn : ∀ c ∈ (routeRaw.map (fun s => '/' :: s)).flatten, c ≠ '?' := by
    intro c hc
    rcases flatten_slash_mem _ c hc with rfl | ⟨s, hs, hcs⟩
    · decide
    · exact ((hroute s hs).2 c hcs).2
  have hPathQn : ('?' : Char) ∉
      '/' :: ("namespaces".data ++ '/' ::
        (percentEncode ns ++ (routeRaw.map (fun s => '/' :: s)).flatten)) := by
    intro hm
    rcases List.mem_cons.mp hm with h | h
    · exact absurd h (by decide)
    rcases List.mem_append.mp h with h | h
    · revert h; decide
    rcases List.mem_cons.mp h with h | h
    · exact absurd h (by decide)
    rcases List.mem_append.mp h with h | h
    · exact hnsQn h
    · exact hFRQn _ h rfl
  have hsplitPath :
      rustSplit '/'
        ('/' :: ("namespaces".data ++ '/' ::
          (percentEncode ns ++ (routeRaw.map (fun s => '/' :: s)).flatten))) =
      [] :: "namespaces".data :: percentEncode ns :: routeRaw := by
    have h1 : rustSplit '/'
        ("namespaces".data ++ '/' ::
          (percentEncode ns ++ (routeRaw.map (fun s => '/' :: s)).flatten)) =
        "namespaces".data :: percentEncode ns :: routeRaw := by
      rw [rustSplit_app '/' _ _ (by decide)]
      rw [rustSplit_segs (percentEncode ns) hnsSlash routeRaw
        (fun s hs c hc => ((hroute s hs).2 c hc).1)]
    rw [rustSplit_cons_self, h1]
  have hfilter :
      (([] :: "namespaces".data :: percentEncode ns :: routeRaw).filter
        (fun s => !s.isEmpty)) =
      "namespaces".data :: percentEncode ns :: routeRaw := by
    rw [List.filter_cons, if_neg (by decide)]
    exact filter_nonempty _ (by
      intro s hs
      rcases List.mem_cons.mp hs with rfl | hs
      · decide
      rcases List.mem_cons.mp hs with rfl | hs
      · exact percentEncode_ne_nil ns hns0
      · exact (hroute s hs).1)
  have hdecodens : percentDecodePath (percentEncode ns) = ns := by
    unfold percentDecodePath
    exact decode_encode false ns hns
  cases q with
  | none =>
    simp only [parseDeepLink]
    rw [splitOnceStr_colon2 "temporal".data _ (by decide)]
    dsimp only
    simp only [List.append_nil]
    rw [splitOnceChar_app '/' "tui".data _ (by decide)]
    dsimp only
    rw [if_neg (fun h => h rfl)]
    rw [if_neg (fun h => h rfl)]
    rw [splitOnceChar_none '?' _ hPathQn]
    simp only [hsplitPath, hfilter, List.map_cons, hdecodens]
    rw [show percentDecodePath ("namespaces".data) = "namespaces".data
      from by decide]
    rw [if_neg (by simp)]
    simp only [List.get?_eq_getElem?, List.getElem?_cons_succ,
      List.getElem?_cons_zero, Option.getD_some, List.drop_succ_cons,
      List.drop_zero]
  | some qs =>
    simp only [parseDeepLink]
    rw [show "tui".data ++ '/' ::
        ("namespaces".data ++ '/' ::
          (percentEncode ns ++
            ((routeRaw.map (fun s => '/' :: s)).flatten ++ '?' :: qs))) =
      "tui".data ++ '/' ::
        (("namespaces".data ++ '/' ::
          (percentEncode ns ++ (routeRaw.map (fun s => '/' :: s)).flatten)) ++
          '?' :: qs) from by simp]
    rw [splitOnceStr_colon2 "temporal".data _ (by decide)]
    dsimp only
    rw [splitOnceChar_app '/' "tui".data _ (by decide)]
    dsimp only
    rw [if_neg (fun h => h rfl)]
    rw [if_neg (fun h => h rfl)]
    rw [show ('/' :: (("namespaces".data ++ '/' ::
        (percentEncode ns ++ (routeRaw.map (fun s => '/' :: s)).flatten)) ++
        '?' :: qs)) =
      ('/' :: ("namespaces".data ++ '/' ::
        (percentEncode ns ++ (routeRaw.map (fun s => '/' :: s)).flatten))) ++
        '?' :: qs from by simp]
    rw [splitOnceChar_app '?' _ _ hPathQn]
    simp only [hsplitPath, hfilter, List.map_cons, hdecodens]
    rw [show percentDecodePath ("namespaces".data) = "namespaces".data
      from by decide]
    rw [if_neg (by simp)]
    simp only [List.get?_eq_getElem?, List.getElem?_cons_succ,
      List.getElem?_cons_zero, Option.getD_some, List.drop_succ_cons,
      List.drop_zero]

instance asciiStr.dec (s : Str) : Decidable (asciiStr s) :=
  inferInstanceAs (Decidable (∀ c ∈ s, c.toNat < 128))

theorem decodePath_lit_workflows :
    percentDecodePath "workflows".data = "workflows".data := by decide

theorem decodePath_lit_schedules :
    percentDecodePath "schedules".data = "schedules".data := by decide

theorem decodePath_lit_activities :
    percentDecodePath "activities".data = "activities".data := by decide

theorem rt_sch_workflows_some (ns sid v : Str) (hns : asciiStr ns)
    (hns0 : ns ≠ []) (hsid : asciiStr sid) (hsid0 : sid ≠ [])
    (hv : asciiStr v) :
    parseDeepLink (formatDeepLink ⟨ns, [.Schedules (.Workflows sid (some v))]⟩) =
      .ok ⟨ns, [.Schedules (.Workflows sid (some v))]⟩ := by
  have hq : buildQuery ⟨ns, [.Schedules (.Workflows sid (some v))]⟩ =
      percentEncode ['q'] ++ '=' :: percentEncode v := by
    simp [buildQuery, leafParams, Location.leaf, List.intercalate]
  have hfmt : formatDeepLink ⟨ns, [.Schedules (.Workflows sid (some v))]⟩ =
      "temporal".data ++ ':' :: '/' :: '/' ::
        ("tui".data ++ '/' ::
          ("namespaces".data ++ '/' ::
            (percentEncode ns ++
              ((["schedules".data, percentEncode sid,
                  "workflows".data].map (fun s => '/' :: s)).flatten ++
                '?' :: (percentEncode ['q'] ++ '=' :: percentEncode v))))) := by
    simp only [formatDeepLink, formatSchedulesRoute, List.map_cons,
      List.map_nil, List.flatten_cons, List.flatten_nil, hq,
      pair_isEmpty_false, Bool.false_eq_true, if_false]
    simp only [List.append_assoc, List.cons_append, List.nil_append,
      List.append_nil]
  rw [hfmt]
  rw [parse_built ns _ (some _) hns hns0 (by
    intro s hs
    rcases List.mem_cons.mp hs with rfl | hs
    · exact ⟨by decide, by decide⟩
    rcases List.mem_cons.mp hs with rfl | hs
    · exact ⟨percentEncode_ne_nil sid hsid0,
        fun c hc => ⟨fun he => percentEncode_not_mem sid '/'
            (by decide) (by decide) (he ▸ hc),
          fun he => percentEncode_not_mem sid '?'
            (by decide) (by decide) (he ▸ hc)⟩⟩
    rcases List.mem_cons.mp hs with rfl | hs
    · exact ⟨by decide, by decide⟩
    · exact absurd hs (List.not_mem_nil s))]
  rw [parseQuery_one ['q'] v (by decide) hv]
  simp only [List.map_cons, List.map_nil, parseRoute]
  rw [if_neg (by decide), if_pos (by decide)]
  rw [show percentDecodePath (percentEncode sid) = sid from
    decode_encode false sid hsid]
  simp only [parseSchedulesRoute]
  rw [if_pos (by decide)]
  simp [PMap.insert, PMap.empty]

theorem enc_seg_ok (s : Str) (h0 : s ≠ []) :
    percentEncode s ≠ [] ∧ ∀ c ∈ percentEncode s, c ≠ '/' ∧ c ≠ '?' :=
  ⟨percentEncode_ne_nil s h0,
   fun c hc =>
     ⟨fun he => percentEncode_not_mem s '/' (by decide) (by decide) (he ▸ hc),
      fun he => percentEncode_not_mem s '?' (by decide) (by decide) (he ▸ hc)⟩⟩

theorem parse_built_none (ns : Str) (routeRaw : List Str)
    (hns : asciiStr ns) (hns0 : ns ≠ [])
    (hroute : ∀ s ∈ routeRaw, s ≠ [] ∧ ∀ c ∈ s, c ≠ '/' ∧ c ≠ '?') :
    parseDeepLink ("temporal".data ++ ':' :: '/' :: '/' ::
        ("tui".data ++ '/' ::
          ("namespaces".data ++ '/' ::
            (percentEncode ns ++
              (routeRaw.map (fun s => '/' :: s)).flatten)))) =
      (match parseRoute (routeRaw.map percentDecodePath) (parseQuery none) with
       | .error e => .error e
       | .ok segs => .ok ⟨ns, segs⟩) := by
  have h := parse_built ns routeRaw none hns hns0 hroute
  simpa using h

theorem rt_wf_collection_none (ns : Str) (hns : asciiStr ns)
    (hns0 : ns ≠ []) :
    parseDeepLink (formatDeepLink ⟨ns, [.Workflows (.Collection none)]⟩) =
      .ok ⟨ns, [.Workflows (.Collection none)]⟩ := by
  have hq : buildQuery ⟨ns, [.Workflows (.Collection none)]⟩ = [] := by
    simp [buildQuery, leafParams, Location.leaf, List.intercalate]
  have hfmt : formatDeepLink ⟨ns, [.Workflows (.Collection none)]⟩ =
      "temporal".data ++ ':' :: '/' :: '/' ::
        ("tui".data ++ '/' ::
          ("namespaces".data ++ '/' ::
            (percentEncode ns ++
              (["workflows".data].map (fun s => '/' :: s)).flatten))) := by
    simp only [formatDeepLink, formatWorkflowsRoute, List.map_cons,
      List.map_nil, List.flatten_cons, List.flatten_nil, hq,
      List.isEmpty_nil, if_true]
    simp only [List.append_assoc, List.cons_append, List.nil_append,
      List.append_nil]
  rw [hfmt]
  rw [parse_built_none ns _ hns hns0 (by
    intro s hs
    rcases List.mem_cons.mp hs with rfl | hs
    · exact ⟨by decide, by decide⟩
    · exact absurd hs (List.not_mem_nil s))]
  simp only [List.map_cons, List.map_nil, parseRoute]
  rw [if_pos (by decide)]
  simp [parseWorkflowsRoute, parseQuery, PMap.empty]

theorem rt_wf_collection_some (ns v : Str) (hns : asciiStr ns)
    (hns0 : ns ≠ []) (hv : asciiStr v) :
    parseDeepLink (formatDeepLink ⟨ns, [.Workflows (.Collection (some v))]⟩) =
      .ok ⟨ns, [.Workflows (.Collection (some v))]⟩ := by
  have hq : buildQuery ⟨ns, [.Workflows (.Collection (some v))]⟩ =
      percentEncode ['q'] ++ '=' :: percentEncode v := by
    simp [buildQuery, leafParams, Location.leaf, List.intercalate]
  have hfmt : formatDeepLink ⟨ns, [.Workflows (.Collection (some v))]⟩ =
      "temporal".data ++ ':' :: '/' :: '/' ::
        ("tui".data ++ '/' ::
          ("namespaces".data ++ '/' ::
            (percentEncode ns ++
              ((["workflows".data].map (fun s => '/' :: s)).flatten ++
                '?' :: (percentEncode ['q'] ++ '=' :: percentEncode v))))) := by
    simp only [formatDeepLink, formatWorkflowsRoute, List.map_cons,
      List.map_nil, List.flatten_cons, List.flatten_nil, hq,
      pair_isEmpty_false, Bool.false_eq_true, if_false]
    simp only [List.append_assoc, List.cons_append, List.nil_append,
      List.append_nil]
  rw [hfmt]
  rw [parse_built ns _ (some _) hns hns0 (by
    intro s hs
    rcases List.mem_cons.mp hs with rfl | hs
    · exact ⟨by decide, by decide⟩
    · exact absurd hs (List.not_mem_nil s))]
  rw [parseQuery_one ['q'] v (by decide) hv]
  simp only [List.map_cons, List.map_nil, parseRoute]
  rw [if_pos (by decide)]
  simp [parseWorkflowsRoute, PMap.insert, PMap.empty]

theorem rt_wf_detail (ns wf : Str) (run tab : Option Str)
    (hns : asciiStr ns) (hns0 : ns ≠ [])
    (hwf : asciiStr wf) (hwf0 : wf ≠ [])
    (hrun : asciiOpt run) (htab : asciiOpt tab) :
    parseDeepLink (formatDeepLink ⟨ns, [.Workflows (.Detail wf run tab)]⟩) =
      .ok ⟨ns, [.Workflows (.Detail wf run tab)]⟩ := by
  have hroute : ∀ s ∈ ["workflows".data, percentEncode wf],
      s ≠ [] ∧ ∀ c ∈ s, c ≠ '/' ∧ c ≠ '?' := by
    intro s hs
    rcases List.mem_cons.mp hs with rfl | hs
    · exact ⟨by decide, by decide⟩
    rcases List.mem_cons.mp hs with rfl | hs
    · exact enc_seg_ok wf hwf0
    · exact absurd hs (List.not_mem_nil s)
  cases run with
  | none =>
    cases tab with
    | none =>
      have hq : buildQuery ⟨ns, [.Workflows (.Detail wf none none)]⟩ = [] := by
        simp [buildQuery, leafParams, Location.leaf, List.intercalate]
      have hfmt : formatDeepLink ⟨ns, [.Workflows (.Detail wf none none)]⟩ =
          "temporal".data ++ ':' :: '/' :: '/' ::
            ("tui".data ++ '/' ::
              ("namespaces".data ++ '/' ::
                (percentEncode ns ++
                  (["workflows".data,
                    percentEncode wf].map (fun s => '/' :: s)).flatten))) := by
        simp only [formatDeepLink, formatWorkflowsRoute, List.map_cons,
          List.map_nil, List.flatten_cons, List.flatten_nil, hq,
          List.isEmpty_nil, if_true]
        simp only [List.append_assoc, List.cons_append, List.nil_append,
          List.append_nil]
      rw [hfmt]
      rw [parse_built_none ns _ hns hns0 hroute]
      simp only [List.map_cons, List.map_nil, parseRoute]
      rw [if_pos (by decide)]
      rw [show percentDecodePath (percentEncode wf) = wf from
        decode_encode false wf hwf]
      simp [parseWorkflowsRoute, parseQuery, PMap.empty]
    | some t =>
      have hq : buildQuery ⟨ns, [.Workflows (.Detail wf none (some t))]⟩ =
          percentEncode "tab".data ++ '=' :: percentEncode t := by
        simp [buildQuery, leafParams, Location.leaf, List.intercalate]
      have hfmt :
          formatDeepLink ⟨ns, [.Workflows (.Detail wf none (some t))]⟩ =
          "temporal".data ++ ':' :: '/' :: '/' ::
            ("tui".data ++ '/' ::
              ("namespaces".data ++ '/' ::
                (percentEncode ns ++
                  ((["workflows".data,
                     percentEncode wf].map (fun s => '/' :: s)).flatten ++
                    '?' :: (percentEncode "tab".data ++
                      '=' :: percentEncode t))))) := by
        simp only [formatDeepLink, formatWorkflowsRoute, List.map_cons,
          List.map_nil, List.flatten_cons, List.flatten_nil, hq,
          pair_isEmpty_false, Bool.false_eq_true, if_false]
        simp only [List.append_assoc, List.cons_append, List.nil_append,
          List.append_nil]
      rw [hfmt]
      rw [parse_built ns _ (some _) hns hns0 hroute]
      rw [parseQuery_one "tab".data t (by decide) htab]
      simp only [List.map_cons, List.map_nil, parseRoute]
      rw [if_pos (by decide)]
      rw [show percentDecodePath (percentEncode wf) = wf from
        decode_encode false wf hwf]
      simp [parseWorkflowsRoute, PMap.insert, PMap.empty]
  | some r =>
    cases tab with
    | none =>
      have hq : buildQuery ⟨ns, [.Workflows (.Detail wf (some r) none)]⟩ =
          percentEncode "run_id".data ++ '=' :: percentEncode r := by
        simp [buildQuery, leafParams, Location.leaf, List.intercalate]
      have hfmt :
          formatDeepLink ⟨ns, [.Workflows (.Detail wf (some r) none)]⟩ =
          "temporal".data ++ ':' :: '/' :: '/' ::
            ("tui".data ++ '/' ::
              ("namespaces".data ++ '/' ::
                (percentEncode ns ++
                  ((["workflows".data,
                     percentEncode wf].map (fun s => '/' :: s)).flatten ++
                    '?' :: (percentEncode "run_id".data ++
                      '=' :: percentEncode r))))) := by
        simp only [formatDeepLink, formatWorkflowsRoute, List.map_cons,
          List.map_nil, List.flatten_cons, List.flatten_nil, hq,
          pair_isEmpty_false, Bool.false_eq_true, if_false]
        simp only [List.append_assoc, List.cons_append, List.nil_append,
          List.append_nil]
      rw [hfmt]
      rw [parse_built ns _ (some _) hns hns0 hroute]
      rw [parseQuery_one "run_id".data r (by decide) hrun]
      simp only [List.map_cons, List.map_nil, parseRoute]
      rw [if_pos (by decide)]
      rw [show percentDecodePath (percentEncode wf) = wf from
        decode_encode false wf hwf]
      simp [parseWorkflowsRoute, PMap.insert, PMap.empty]
    | some t =>
      have hq : buildQuery ⟨ns, [.Workflows (.Detail wf (some r) (some t))]⟩ =
          (percentEncode "run_id".data ++ '=' :: percentEncode r) ++
            '&' :: (percentEncode "tab".data ++ '=' :: percentEncode t) := by
        simp [buildQuery, leafParams, Location.leaf, List.intercalate,
          List.intersperse]
      have hqne : ((percentEncode "run_id".data ++ '=' :: percentEncode r) ++
          '&' :: (percentEncode "tab".data ++
            '=' :: percentEncode t)).isEmpty = false := by
        cases h : percentEncode "run_id".data ++ '=' :: percentEncode r with
        | nil =>
          exact absurd h (by cases h2 : percentEncode "run_id".data <;> simp)
        | cons x xs => simp
      have hfmt :
          formatDeepLink ⟨ns, [.Workflows (.Detail wf (some r) (some t))]⟩ =
          "temporal".data ++ ':' :: '/' :: '/' ::
            ("tui".data ++ '/' ::
              ("namespaces".data ++ '/' ::
                (percentEncode ns ++
                  ((["workflows".data,
                     percentEncode wf].map (fun s => '/' :: s)).flatten ++
                    '?' :: ((percentEncode "run_id".data ++
                        '=' :: percentEncode r) ++
                      '&' :: (percentEncode "tab".data ++
                        '=' :: percentEncode t)))))) := by
        simp only [formatDeepLink, formatWorkflowsRoute, List.map_cons,
          List.map_nil, List.flatten_cons, List.flatten_nil, hq, hqne,
          Bool.false_eq_true, if_false]
        simp only [List.append_assoc, List.cons_append, List.nil_append,
          List.append_nil]
      rw [hfmt]
      rw [parse_built ns _ (some _) hns hns0 hroute]
      rw [parseQuery_two "run_id".data r "tab".data t (by decide) hrun
        (by decide) htab]
      simp only [List.map_cons, List.map_nil, parseRoute]
      rw [if_pos (by decide)]
      rw [show percentDecodePath (percentEncode wf) = wf from
        decode_encode false wf hwf]
      simp [parseWorkflowsRoute, PMap.insert, PMap.empty]

theorem rt_wf_activities (ns wf : Str) (aid : Option Str)
    (hns : asciiStr ns) (hns0 : ns ≠ [])
    (hwf : asciiStr wf) (hwf0 : wf ≠ [])
    (haid : asciiOpt aid) (haid0 : aid ≠ some []) :
    parseDeepLink (formatDeepLink ⟨ns, [.Workflows (.Activities wf aid)]⟩) =
      .ok ⟨ns, [.Workflows (.Activities wf aid)]⟩ := by
  have hq : buildQuery ⟨ns, [.Workflows (.Activities wf aid)]⟩ = [] := by
    simp [buildQuery, leafParams, Location.leaf, List.intercalate]
  cases aid with
  | none =>
    have hfmt : formatDeepLink ⟨ns, [.Workflows (.Activities wf none)]⟩ =
        "temporal".data ++ ':' :: '/' :: '/' ::
          ("tui".data ++ '/' ::
            ("namespaces".data ++ '/' ::
              (percentEncode ns ++
                (["workflows".data, percentEncode wf,
                  "activities".data].map (fun s => '/' :: s)).flatten))) := by
      simp only [formatDeepLink, formatWorkflowsRoute, List.map_cons,
        List.map_nil, List.flatten_cons, List.flatten_nil, hq,
        List.isEmpty_nil, if_true]
      simp only [List.append_assoc, List.cons_append, List.nil_append,
        List.append_nil]
    rw [hfmt]
    rw [parse_built_none ns _ hns hns0 (by
      intro s hs
      rcases List.mem_cons.mp hs with rfl | hs
      · exact ⟨by decide, by decide⟩
      rcases List.mem_cons.mp hs with rfl | hs
      · exact enc_seg_ok wf hwf0
      rcases List.mem_cons.mp hs with rfl | hs
      · exact ⟨by decide, by decide⟩
      · exact absurd hs (List.not_mem_nil s))]
    simp only [List.map_cons, List.map_nil, parseRoute]
    rw [if_pos (by decide)]
    rw [show percentDecodePath (percentEncode wf) = wf from
      decode_encode false wf hwf]
    simp only [parseWorkflowsRoute]
    rw [if_pos (by decide)]
    rfl
  | some a =>
    have ha : asciiStr a := haid
    have ha0 : a ≠ [] := fun h => haid0 (by rw [h])
    have hfmt : formatDeepLink ⟨ns, [.Workflows (.Activities wf (some a))]⟩ =
        "temporal".data ++ ':' :: '/' :: '/' ::
          ("tui".data ++ '/' ::
            ("namespaces".data ++ '/' ::
              (percentEncode ns ++
                (["workflows".data, percentEncode wf, "activities".data,
                  percentEncode a].map (fun s => '/' :: s)).flatten))) := by
      simp only [formatDeepLink, formatWorkflowsRoute, List.map_cons,
        List.map_nil, List.flatten_cons, List.flatten_nil, hq,
        List.isEmpty_nil, if_true]
      simp only [List.append_assoc, List.cons_append, List.nil_append,
        List.append_nil]
    rw [hfmt]
    rw [parse_built_none ns _ hns hns0 (by
      intro s hs
      rcases List.mem_cons.mp hs with rfl | hs
      · exact ⟨by decide, by decide⟩
      rcases List.mem_cons.mp hs with rfl | hs
      · exact enc_seg_ok wf hwf0
      rcases List.mem_cons.mp hs with rfl | hs
      · exact ⟨by decide, by decide⟩
      rcases List.mem_cons.mp hs with rfl | hs
      · exact enc_seg_ok a ha0
      · exact absurd hs (List.not_mem_nil s))]
    simp only [List.map_cons, List.map_nil, parseRoute]
    rw [if_pos (by decide)]
    rw [show percentDecodePath (percentEncode wf) = wf from
      decode_encode false wf hwf]
    rw [show percentDecodePath (percentEncode a) = a from
      decode_encode false a ha]
    simp only [parseWorkflowsRoute]
    rw [if_pos (by decide)]
    rfl

theorem rt_sch_collection_none (ns : Str) (hns : asciiStr ns)
    (hns0 : ns ≠ []) :
    parseDeepLink (formatDeepLink ⟨ns, [.Schedules (.Collection none)]⟩) =
      .ok ⟨ns, [.Schedules (.Collection none)]⟩ := by
  have hq : buildQuery ⟨ns, [.Schedules (.Collection none)]⟩ = [] := by
    simp [buildQuery, leafParams, Location.leaf, List.intercalate]
  have hfmt : formatDeepLink ⟨ns, [.Schedules (.Collection none)]⟩ =
      "temporal".data ++ ':' :: '/' :: '/' ::
        ("tui".data ++ '/' ::
          ("namespaces".data ++ '/' ::
            (percentEncode ns ++
              (["schedules".data].map (fun s => '/' :: s)).flatten))) := by
    simp only [formatDeepLink, formatSchedulesRoute, List.map_cons,
      List.map_nil, List.flatten_cons, List.flatten_nil, hq,
      List.isEmpty_nil, if_true]
    simp only [List.append_assoc, List.cons_append, List.nil_append,
      List.append_nil]
  rw [hfmt]
  rw [parse_built_none ns _ hns hns0 (by
    intro s hs
    rcases List.mem_cons.mp hs with rfl | hs
    · exact ⟨by decide, by decide⟩
    · exact absurd hs (List.not_mem_nil s))]
  simp only [List.map_cons, List.map_nil, parseRoute]
  rw [if_neg (by decide), if_pos (by decide)]
  simp [parseSchedulesRoute, parseQuery, PMap.empty]

theorem rt_sch_collection_some (ns v : Str) (hns : asciiStr ns)
    (hns0 : ns ≠ []) (hv : asciiStr v) :
    parseDeepLink (formatDeepLink ⟨ns, [.Schedules (.Collection (some v))]⟩) =
      .ok ⟨ns, [.Schedules (.Collection (some v))]⟩ := by
  have hq : buildQuery ⟨ns, [.Schedules (.Collection (some v))]⟩ =
      percentEncode ['q'] ++ '=' :: percentEncode v := by
    simp [buildQuery, leafParams, Location.leaf, List.intercalate]
  have hfmt : formatDeepLink ⟨ns, [.Schedules (.Collection (some v))]⟩ =
      "temporal".data ++ ':' :: '/' :: '/' ::
        ("tui".data ++ '/' ::
          ("namespaces".data ++ '/' ::
            (percentEncode ns ++
              ((["schedules".data].map (fun s => '/' :: s)).flatten ++
                '?' :: (percentEncode ['q'] ++ '=' :: percentEncode v))))) := by
    simp only [formatDeepLink, formatSchedulesRoute, List.map_cons,
      List.map_nil, List.flatten_cons, List.flatten_nil, hq,
      pair_isEmpty_false, Bool.false_eq_true, if_false]
    simp only [List.append_assoc, List.cons_append, List.nil_append,
      List.append_nil]
  rw [hfmt]
  rw [parse_built ns _ (some _) hns hns0 (by
    intro s hs
    rcases List.mem_cons.mp hs with rfl | hs
    · exact ⟨by decide, by decide⟩
    · exact absurd hs (List.not_mem_nil s))]
  rw [parseQuery_one ['q'] v (by decide) hv]
  simp only [List.map_cons, List.map_nil, parseRoute]
  rw [if_neg (by decide), if_pos (by decide)]
  simp [parseSchedulesRoute, PMap.insert, PMap.empty]

theorem rt_sch_detail (ns sid : Str) (hns : asciiStr ns) (hns0 : ns ≠ [])
    (hsid : asciiStr sid) (hsid0 : sid ≠ []) :
    parseDeepLink (formatDeepLink ⟨ns, [.Schedules (.Detail sid)]⟩) =
      .ok ⟨ns, [.Schedules (.Detail sid)]⟩ := by
  have hq : buildQuery ⟨ns, [.Schedules (.Detail sid)]⟩ = [] := by
    simp [buildQuery, leafParams, Location.leaf, List.intercalate]
  have hfmt : formatDeepLink ⟨ns, [.Schedules (.Detail sid)]⟩ =
      "temporal".data ++ ':' :: '/' :: '/' ::
        ("tui".data ++ '/' ::
          ("namespaces".data ++ '/' ::
            (percentEncode ns ++
              (["schedules".data,
                percentEncode sid].map (fun s => '/' :: s)).flatten))) := by
    simp only [formatDeepLink, formatSchedulesRoute, List.map_cons,
      List.map_nil, List.flatten_cons, List.flatten_nil, hq,
      List.isEmpty_nil, if_true]
    simp only [List.append_assoc, List.cons_append, List.nil_append,
      List.append_nil]
  rw [hfmt]
  rw [parse_built_none ns _ hns hns0 (by
    intro s hs
    rcases List.mem_cons.mp hs with rfl | hs
    · exact ⟨by decide, by decide⟩
    rcases List.mem_cons.mp hs with rfl | hs
    · exact enc_seg_ok sid hsid0
    · exact absurd hs (List.not_mem_nil s))]
  simp only [List.map_cons, List.map_nil, parseRoute]
  rw [if_neg (by decide), if_pos (by decide)]
  rw [show percentDecodePath (percentEncode sid) = sid from
    decode_encode false sid hsid]
  simp [parseSchedulesRoute]

theorem rt_sch_workflows_none (ns sid : Str) (hns : asciiStr ns)
    (hns0 : ns ≠ []) (hsid : asciiStr sid) (hsid0 : sid ≠ []) :
    parseDeepLink (formatDeepLink ⟨ns, [.Schedules (.Workflows sid none)]⟩) =
      .ok ⟨ns, [.Schedules (.Workflows sid none)]⟩ := by
  have hq : buildQuery ⟨ns, [.Schedules (.Workflows sid none)]⟩ = [] := by
    simp [buildQuery, leafParams, Location.leaf, List.intercalate]
  have hfmt : formatDeepLink ⟨ns, [.Schedules (.Workflows sid none)]⟩ =
      "temporal".data ++ ':' :: '/' :: '/' ::
        ("tui".data ++ '/' ::
          ("namespaces".data ++ '/' ::
            (percentEncode ns ++
              (["schedules".data, percentEncode sid,
                "workflows".data].map (fun s => '/' :: s)).flatten))) := by
    simp only [formatDeepLink, formatSchedulesRoute, List.map_cons,
      List.map_nil, List.flatten_cons, List.flatten_nil, hq,
      List.isEmpty_nil, if_true]
    simp only [List.append_assoc, List.cons_append, List.nil_append,
      List.append_nil]
  rw [hfmt]
  rw [parse_built_none ns _ hns hns0 (by
    intro s hs
    rcases List.mem_cons.mp hs with rfl | hs
    · exact ⟨by decide, by decide⟩
    rcases List.mem_cons.mp hs with rfl | hs
    · exact enc_seg_ok sid hsid0
    rcases List.mem_cons.mp hs with rfl | hs
    · exact ⟨by decide, by decide⟩
    · exact absurd hs (List.not_mem_nil s))]
  simp only [List.map_cons, List.map_nil, parseRoute]
  rw [if_neg (by decide), if_pos (by decide)]
  rw [show percentDecodePath (percentEncode sid) = sid from
    decode_encode false sid hsid]
  simp only [parseSchedulesRoute]
  rw [if_pos (by decide)]
  simp [parseQuery, PMap.empty]

/-- Side conditions under which the round-trip law does hold: every
user-supplied string in the leaf is ASCII, and every string emitted as a
path segment is nonempty. -/
def goodLeaf : RouteSegment → Prop
  | .Workflows (.Collection q) => asciiOpt q
  | .Workflows (.Detail wf run tab) =>
    asciiStr wf ∧ wf ≠ [] ∧ asciiOpt run ∧ asciiOpt tab
  | .Workflows (.Activities wf aid) =>
    asciiStr wf ∧ wf ≠ [] ∧ asciiOpt aid ∧ aid ≠ some []
  | .Schedules (.Collection q) => asciiOpt q
  | .Schedules (.Detail sid) => asciiStr sid ∧ sid ≠ []
  | .Schedules (.Workflows sid q) => asciiStr sid ∧ sid ≠ [] ∧ asciiOpt q

instance asciiOpt.dec : (o : Option Str) → Decidable (asciiOpt o)
  | none => .isTrue trivial
  | some s => inferInstanceAs (Decidable (asciiStr s))

instance goodLeaf.dec : (s : RouteSegment) → Decidable (goodLeaf s)
  | .Workflows (.Collection q) => inferInstanceAs (Decidable (asciiOpt q))
  | .Workflows (.Detail _ _ _) => inferInstanceAs (Decidable (_ ∧ _ ∧ _ ∧ _))
  | .Workflows (.Activities _ _) => inferInstanceAs (Decidable (_ ∧ _ ∧ _ ∧ _))
  | .Schedules (.Collection q) => inferInstanceAs (Decidable (asciiOpt q))
  | .Schedules (.Detail _) => inferInstanceAs (Decidable (_ ∧ _))
  | .Schedules (.Workflows _ _) => inferInstanceAs (Decidable (_ ∧ _ ∧ _))

/-- Claim C1, counterexample: the round-trip law fails on a Location whose
namespace holds the non-ASCII character U+00E9; format percent-encodes its
two UTF-8 bytes as %C3%A9, but percent_decode_inner turns each decoded
byte into its own char (byte as u8 as char), so parsing yields the
two-character namespace U+00C3 U+00A9 instead of the original. -/
theorem c1_roundtrip_counterexample :
    parseDeepLink (formatDeepLink ⟨['\u00e9'],
        [.Schedules (.Collection none)]⟩) ≠
      .ok ⟨['\u00e9'], [.Schedules (.Collection none)]⟩ := by
  decide

/-- Claim C1 (amended): for every Location built from a nonempty ASCII
namespace and one route segment of the grammar whose embedded strings are
ASCII and whose path-emitted ids are nonempty — covering workflow and
schedule collections with an optional filter, execution detail with
optional run-id and tab query parameters, activities with an optional
activity id, schedule detail, and schedule-to-executions with an optional
user filter — formatting the Location as a deep-link URI and parsing that
URI back returns exactly the original Location. -/
theorem c1_roundtrip (ns : Str) (seg : RouteSegment)
    (hns : asciiStr ns) (hns0 : ns ≠ []) (hgood : goodLeaf seg) :
    parseDeepLink (formatDeepLink ⟨ns, [seg]⟩) = .ok ⟨ns, [seg]⟩ := by
  cases seg with
  | Workflows r =>
    cases r with
    | Collection q =>
      cases q with
      | none => exact rt_wf_collection_none ns hns hns0
      | some v => exact rt_wf_collection_some ns v hns hns0 hgood
    | Detail wf run tab =>
      obtain ⟨h1, h2, h3, h4⟩ := hgood
      exact rt_wf_detail ns wf run tab hns hns0 h1 h2 h3 h4
    | Activities wf aid =>
      obtain ⟨h1, h2, h3, h4⟩ := hgood
      exact rt_wf_activities ns wf aid hns hns0 h1 h2 h3 h4
  | Schedules r =>
    cases r with
    | Collection q =>
      cases q with
      | none => exact rt_sch_collection_none ns hns hns0
      | some v => exact rt_sch_collection_some ns v hns hns0 hgood
    | Detail sid =>
      obtain ⟨h1, h2⟩ := hgood
      exact rt_sch_detail ns sid hns hns0 h1 h2
    | Workflows sid q =>
      obtain ⟨h1, h2, h3⟩ := hgood
      cases q with
      | none => exact rt_sch_workflows_none ns sid hns hns0 h1 h2
      | some v => exact rt_sch_workflows_some ns sid v hns hns0 h1 h2 h3

/-- Concrete round trip through the amended theorem: execution detail with
run-id and tab query parameters in an ASCII namespace. -/
theorem c1_roundtrip_witness :
    (asciiStr "default".data ∧ "default".data ≠ [] ∧
      goodLeaf (.Workflows (.Detail "order-123".data
        (some "run-abc".data) (some "history".data)))) ∧
    parseDeepLink (formatDeepLink ⟨"default".data,
        [.Workflows (.Detail "order-123".data
          (some "run-abc".data) (some "history".data))]⟩) =
      .ok ⟨"default".data,
        [.Workflows (.Detail "order-123".data
          (some "run-abc".data) (some "history".data))]⟩ :=
  ⟨⟨by decide, by decide, by decide⟩,
   c1_roundtrip "default".data
     (.Workflows (.Detail "order-123".data
       (some "run-abc".data) (some "history".data)))
     (by decide) (by decide) (by decide)⟩

end T9s
